import Mathlib

/-!
AtmoScan sensor processes (`P_AirSensors.cpp`)

A shallow embedding of the acquisition layer of the firmware: the wire
constants, the PMS7003 and MH-Z19 frame decoders, the Geiger pulse counter,
the multi-gas adapter and the remaining sensor processes with their `setup()`
routines and getters, followed by theorems about them.

Conventions of the embedding

* `unsigned char` is `Byte = Fin 256`; a buffer is a `List Byte`.  A read
  `buf[i]` outside the buffer is undefined in C and is `none` here, so the
  decoders return `Option`.
* `int` values never leave the range `0 .. 65535 + 30 * 255` in the code that
  is modelled, so they are plain `Nat`.  `unsigned long` subtraction wraps
  modulo `2 ^ 32` and is written so.
* `float` values are rationals (`ℚ`).  The rate of the Geiger counter, which
  is compared with a threshold, is computed with the IEEE 754 roundings of the
  code (`toFloat`, `toDouble`: round to nearest, ties to even); the other
  `float` expressions (a fixed offset, a division by 100, the means) are
  exact.  Infinities and NaN are not values of the model.
* Calls to collaborators (serial port, logger, `delay`) are recorded as a
  list of `Event`s in program order; what a `readBytes` leaves in the
  destination buffer and what `millis()` returns are inputs of the step.
* A getter returns its value together with the process after the call.
* The interrupt handler of the Geiger tube may run between any two statements
  of `service()`; only its position relative to the read of `counts` and to
  `counts = 0` matters, and `serviceInterleaved` is indexed by it.
-/

namespace AtmoScan

/-- An `unsigned char`. -/
abbrev Byte := Fin 256

/-- Value of `#define LND712_CONV_FACTOR 123`. -/
def LND712_CONV_FACTOR : Nat := 123

/-- Value of `#define PMS7003_COMMAND_SIZE 7`. -/
def PMS7003_COMMAND_SIZE : Nat := 7

/-- Value of `#define PMS7003_RESPONSE_SIZE 32`. -/
def PMS7003_RESPONSE_SIZE : Nat := 32

/-- Value of `#define MHZ19_COMMAND_SIZE 9`. -/
def MHZ19_COMMAND_SIZE : Nat := 9

/-- Value of `#define MHZ19_RESPONSE_SIZE 9`. -/
def MHZ19_RESPONSE_SIZE : Nat := 9

/-- The array `PMS7003_cmdPassiveEnable[]`. -/
def PMS7003_cmdPassiveEnable : List Byte := [0x42, 0x4d, 0xe1, 0x00, 0x00, 0x01, 0x70]

/-- The array `PMS7003_cmdPassiveRead[]`. -/
def PMS7003_cmdPassiveRead : List Byte := [0x42, 0x4d, 0xe2, 0x00, 0x00, 0x01, 0x71]

/-- The array `PMS7003_cmdSleep[]`. -/
def PMS7003_cmdSleep : List Byte := [0x42, 0x4d, 0xe4, 0x00, 0x00, 0x01, 0x73]

/-- The array `PMS7003_cmdWakeup[]`. -/
def PMS7003_cmdWakeup : List Byte := [0x42, 0x4d, 0xe4, 0x00, 0x01, 0x01, 0x74]

/-- The array `MHZ19_cmdRead[9]`. -/
def MHZ19_cmdRead : List Byte := [0xFF, 0x01, 0x86, 0x00, 0x00, 0x00, 0x00, 0x00, 0x79]

/-- Modelled from the spec: the rolling average (`Average<float>` of the
external Average library, which is not in the sources).  It has a fixed
capacity, holds the most recent samples (oldest first, at most `capacity` of
them) and keeps a running count of the samples ever pushed. -/
structure RollingAverage where
  capacity : Nat
  samples : List ℚ
  pushed : Nat
deriving DecidableEq

/-- Modelled from the spec: `push` always succeeds; once the capacity is
reached the oldest sample is overwritten. -/
def RollingAverage.push (a : RollingAverage) (value : ℚ) : RollingAverage :=
  { capacity := a.capacity
    samples := (a.samples ++ [value]).drop ((a.samples ++ [value]).length - a.capacity)
    pushed := a.pushed + 1 }

/-- Modelled from the spec: `mean` is the arithmetic mean of the samples
currently held, and `0` when no sample is held. -/
def RollingAverage.mean (a : RollingAverage) : ℚ :=
  if a.samples.length = 0 then 0 else a.samples.sum / a.samples.length

/-- A call to a collaborator, as seen from a sensor process. -/
inductive Event where
  /-- Call `write(cmd, size)` on the serial port. -/
  | write (cmd : List Byte) (size : Nat)
  /-- Call `flush()` on the serial port. -/
  | flush
  /-- Call `readBytes(buffer, length)`: `capacity` is the declared size of the
  destination array, `length` the number of bytes requested. -/
  | readBytes (capacity : Nat) (length : Nat)
  /-- Call `delay(ms)`. -/
  | delay (ms : Nat)
  /-- Call `errLog(msg)`. -/
  | errLog (msg : String)
deriving DecidableEq

/-- The value of byte `i` of a buffer as a number, `0` past the end; used to
state properties of buffers whose length is known. -/
def byteAt (buf : List Byte) (i : Nat) : Nat := (buf.getD i 0).val

/-! ## Particle sensor process (PMS7003) -/

/-- The data members of `Proc_ParticleSensor`. -/
structure Proc_ParticleSensor where
  avgPM01 : RollingAverage
  avgPM2_5 : RollingAverage
  avgPM10 : RollingAverage
deriving DecidableEq

namespace Proc_ParticleSensor

/-- The loop `for (int i = 0; i < n; i++) receiveSum = receiveSum + thebuf[i];`
started from `receiveSum = 0`: the value of `receiveSum` after `n` rounds. -/
def receiveSumLoop (thebuf : List Byte) : Nat → Option Nat
  | 0 => some 0
  | i + 1 => do
    let receiveSum ← receiveSumLoop thebuf i
    let b ← thebuf[i]?
    pure (receiveSum + b.val)

/-- `Proc_ParticleSensor::verifyChecksum(thebuf, leng)`. -/
def verifyChecksum (thebuf : List Byte) (leng : Nat) : Option Nat :=
  if leng < 2 then none
  else do
    let receiveSum ← receiveSumLoop thebuf (leng - 2)
    let hi ← thebuf[leng - 2]?
    let lo ← thebuf[leng - 1]?
    if receiveSum = (hi.val <<< 8) + lo.val then pure 1 else pure 0

/-- `Proc_ParticleSensor::extractPM01(thebuf)`. -/
def extractPM01 (thebuf : List Byte) : Option Nat := do
  let hi ← thebuf[4]?
  let lo ← thebuf[5]?
  pure ((hi.val <<< 8) + lo.val)

/-- `Proc_ParticleSensor::extractPM2_5(thebuf)`. -/
def extractPM2_5 (thebuf : List Byte) : Option Nat := do
  let hi ← thebuf[6]?
  let lo ← thebuf[7]?
  pure ((hi.val <<< 8) + lo.val)

/-- `Proc_ParticleSensor::extractPM10(thebuf)`. -/
def extractPM10 (thebuf : List Byte) : Option Nat := do
  let hi ← thebuf[8]?
  let lo ← thebuf[9]?
  pure ((hi.val <<< 8) + lo.val)

/-- The test `Buffer[0] == 0x42 && Buffer[1] == 0x4d` of `service`, with the
short circuit of `&&`. -/
def headerOK (Buffer : List Byte) : Option Bool := do
  let b0 ← Buffer[0]?
  if b0.val = 0x42 then do
    let b1 ← Buffer[1]?
    pure (decide (b1.val = 0x4d))
  else pure false

/-- `Proc_ParticleSensor::service()`.  `Buffer` is the content of the local
array after `Serial.readBytes(Buffer, PMS7003_RESPONSE_SIZE)`.  The result is
the process after the call and the calls made to collaborators. -/
def service (Buffer : List Byte) (s : Proc_ParticleSensor) :
    Option (Proc_ParticleSensor × List Event) := do
  let io : List Event :=
    [Event.write PMS7003_cmdPassiveRead PMS7003_COMMAND_SIZE, Event.flush,
      Event.readBytes PMS7003_RESPONSE_SIZE PMS7003_RESPONSE_SIZE]
  let hdr ← headerOK Buffer
  if hdr then do
    let ok ← verifyChecksum Buffer PMS7003_RESPONSE_SIZE
    if ok ≠ 0 then do
      let PM01 ← extractPM01 Buffer
      let PM2_5 ← extractPM2_5 Buffer
      let PM10 ← extractPM10 Buffer
      pure ({ avgPM01 := s.avgPM01.push (PM01 : ℚ)
              avgPM2_5 := s.avgPM2_5.push (PM2_5 : ℚ)
              avgPM10 := s.avgPM10.push (PM10 : ℚ) }, io)
    else
      pure (s, io ++ [Event.errLog "Particle sensor - Checksum wrong"])
  else
    pure (s, io ++ [Event.errLog "Particle sensor -  timeout"])

end Proc_ParticleSensor

/-! ## CO2 sensor process (MH-Z19) -/

/-- The data members of `Proc_CO2Sensor` that `service` touches. -/
structure Proc_CO2Sensor where
  avgCO2 : RollingAverage
deriving DecidableEq

namespace Proc_CO2Sensor

/-- `Proc_CO2Sensor::service()`.  `Buffer` is the content of the local array
(declared with `MHZ19_RESPONSE_SIZE` elements) after the first
`co2.readBytes(Buffer, MHZ19_RESPONSE_SIZE)`.  The result is the process after
the call and the calls made to collaborators, in program order. -/
def service (Buffer : List Byte) (s : Proc_CO2Sensor) : Option (Proc_CO2Sensor × List Event) := do
  let io : List Event :=
    [Event.write MHZ19_cmdRead MHZ19_COMMAND_SIZE,
      Event.readBytes MHZ19_RESPONSE_SIZE MHZ19_RESPONSE_SIZE]
  let b0 ← Buffer[0]?
  if b0.val ≠ 0xFF then
    pure (s, io ++ [Event.delay 1000, Event.errLog "CO2 Sensor - Wrong starting byte",
      Event.readBytes MHZ19_RESPONSE_SIZE (MHZ19_RESPONSE_SIZE * 2)])
  else do
    let b1 ← Buffer[1]?
    if b1.val ≠ 0x86 then
      pure (s, io ++ [Event.delay 1000, Event.errLog "CO2 Sensor - Wrong command",
        Event.readBytes MHZ19_RESPONSE_SIZE (MHZ19_RESPONSE_SIZE * 2)])
    else do
      let b2 ← Buffer[2]?
      let b3 ← Buffer[3]?
      let responseHigh : Nat := b2.val
      let responseLow : Nat := b3.val
      let co2 : ℚ := (((256 * responseHigh) + responseLow : Nat) : ℚ)
      pure ({ avgCO2 := s.avgCO2.push co2 }, io)

end Proc_CO2Sensor

/-! ## IEEE 754 rounding -/

/-- Round to the nearest integer, a tie going to the even neighbour. -/
def roundHalfEven (q : ℚ) : Int :=
  if q - ⌊q⌋ < 1 / 2 then ⌊q⌋
  else if 1 / 2 < q - ⌊q⌋ then ⌊q⌋ + 1
  else if ⌊q⌋ % 2 = 0 then ⌊q⌋ else ⌊q⌋ + 1

/-- Round `x` to the nearest number with `p` significant bits, ties to even:
with `2 ^ e ≤ |x| < 2 ^ (e + 1)` the result is a multiple of
`2 ^ (e - (p - 1))`.  The exponent range is not bounded: every value the
modelled code computes from machine integers lies in the normal range of the
format. -/
def roundToBits (p : Nat) (x : ℚ) : ℚ :=
  if x = 0 then 0
  else (roundHalfEven (x / 2 ^ (Int.log 2 |x| - ((p : Int) - 1))) : ℚ) *
    2 ^ (Int.log 2 |x| - ((p : Int) - 1))

/-- Conversion to `float` (binary32, 24 significant bits). -/
def toFloat (x : ℚ) : ℚ := roundToBits 24 x

/-- The result of one `double` operation (binary64, 53 significant bits). -/
def toDouble (x : ℚ) : ℚ := roundToBits 53 x

/-! ## Geiger sensor process (LND712) -/

/-- The data members of `Proc_GeigerSensor` that `service` touches.  The class
declaration is not in the sources: `counts` is taken as an integer of either
sign, `lastCountReset` as an `unsigned long`. -/
structure Proc_GeigerSensor where
  counts : Int
  lastCountReset : Nat
  avgCPM : RollingAverage
deriving DecidableEq

namespace Proc_GeigerSensor

/-- The `unsigned long` difference `millis() - lastCountReset` (32 bits). -/
def elapsed (millis lastCountReset : Nat) : Nat :=
  (millis % 2 ^ 32 + 2 ^ 32 - lastCountReset % 2 ^ 32) % 2 ^ 32

/-- The expression `float(counts) * 60000.0 / float(interval)` assigned to
`float thisCPM`, for `interval ≠ 0`: both conversions round to `float`, the
product and the quotient are `double` operations (`60000.0` is a `double`
literal), and the assignment rounds to `float`. -/
def thisCPM (counts : Int) (interval : Nat) : ℚ :=
  toFloat (toDouble (toDouble (toFloat (counts : ℚ) * 60000.0) / toFloat (interval : ℚ)))

/-- `Proc_GeigerSensor::service()`.  `FAST_SAMPLE_PERIOD` is the macro of that
name (defined outside the sources); `millis1` and `millis2` are the values
returned by the first and the second call of `millis()`.

The guard compares the integer `interval` with the `double` product
`FAST_SAMPLE_PERIOD * 0.9`; for a period below `2 ^ 31` that product lies on the
same side of every integer as the exact `9 * FAST_SAMPLE_PERIOD / 10`, which is
what is written here.

When `interval` is 0, which the guard lets through only if
`FAST_SAMPLE_PERIOD` is 0, the quotient is not a number of the model: it is an
infinity, which fails one of the two tests and is not pushed, or, for
`counts = 0`, NaN, which the code pushes and an average of rationals cannot
hold; the average is left as it was. -/
def service (FAST_SAMPLE_PERIOD : Nat) (millis1 millis2 : Nat) (s : Proc_GeigerSensor) :
    Proc_GeigerSensor :=
  let interval : Nat := elapsed millis1 s.lastCountReset
  let avgCPM : RollingAverage :=
    if ((interval : ℚ) < (FAST_SAMPLE_PERIOD : ℚ) * 0.9) ∨ (interval > FAST_SAMPLE_PERIOD * 2) then
      s.avgCPM
    else if interval = 0 then
      s.avgCPM
    else
      let thisCPM : ℚ := thisCPM s.counts interval
      if thisCPM > 100000 ∨ thisCPM < 0 then
        s.avgCPM
      else
        s.avgCPM.push thisCPM
  { counts := 0
    lastCountReset := millis2
    avgCPM := avgCPM }

end Proc_GeigerSensor

/-! ## MultiGas sensor process (MiCS6814) -/

/-- The data members of `Proc_MultiGasSensor`. -/
structure Proc_MultiGasSensor where
  avgNH3 : RollingAverage
  avgCO : RollingAverage
  avgNO2 : RollingAverage
  avgC3H8 : RollingAverage
  avgC4H10 : RollingAverage
  avgCH4 : RollingAverage
  avgH2 : RollingAverage
  avgC2H5OH : RollingAverage
deriving DecidableEq

namespace Proc_MultiGasSensor

/-- `Proc_MultiGasSensor::service()`.  The eight arguments are the values
returned by `gas.measure_NH3()` .. `gas.measure_C2H5OH()` in this cycle. -/
def service (nh3 co no2 c3h8 c4h10 ch4 h2 c2h5oh : ℚ) (s : Proc_MultiGasSensor) :
    Proc_MultiGasSensor :=
  let s := if nh3 ≥ 0 then { s with avgNH3 := s.avgNH3.push nh3 } else s
  let s := if co ≥ 0 then { s with avgCO := s.avgCO.push co } else s
  let s := if no2 ≥ 0 then { s with avgNO2 := s.avgNO2.push no2 } else s
  let s := if c3h8 ≥ 0 then { s with avgC3H8 := s.avgC3H8.push c3h8 } else s
  let s := if c4h10 ≥ 0 then { s with avgC4H10 := s.avgC4H10.push c4h10 } else s
  let s := if ch4 ≥ 0 then { s with avgCH4 := s.avgCH4.push ch4 } else s
  let s := if h2 ≥ 0 then { s with avgH2 := s.avgH2.push h2 } else s
  let s := if c2h5oh ≥ 0 then { s with avgC2H5OH := s.avgC2H5OH.push c2h5oh } else s
  s

end Proc_MultiGasSensor

/-- The canonical PMS7003 response `42 4D 00 1C 00 08 00 0A 00 0C 00 .. 00 00 C9`:
PM1.0 = 8, PM2.5 = 10, PM10 = 12, with a correct checksum. -/
def canonicalFrame : List Byte :=
  [0x42, 0x4D, 0x00, 0x1C, 0x00, 0x08, 0x00, 0x0A, 0x00, 0x0C] ++
    List.replicate 20 0 ++ [0x00, 0xC9]

/-! ## Construction, `setup()` and the getters -/

/-- Modelled from the spec: a rolling average is created at process
construction with a fixed capacity and no sample. -/
def RollingAverage.new (capacity : Nat) : RollingAverage :=
  { capacity := capacity, samples := [], pushed := 0 }

/-- Modelled from the spec: a call of `mean()` returns the mean and has no
side effect (an average is mutated only by `push`); the second component is
the average after the call. -/
def RollingAverage.meanCall (a : RollingAverage) : ℚ × RollingAverage := (a.mean, a)

/-- Every sample held by the average satisfies `Q`. -/
def RollingAverage.AllSamples (Q : ℚ → Prop) (a : RollingAverage) : Prop :=
  ∀ v ∈ a.samples, Q v

namespace Proc_ParticleSensor

/-- The constructor of `Proc_ParticleSensor`: three averages of
`AVERAGING_WINDOW` samples (a macro defined outside the sources). -/
def new (AVERAGING_WINDOW : Nat) : Proc_ParticleSensor :=
  { avgPM01 := RollingAverage.new AVERAGING_WINDOW
    avgPM2_5 := RollingAverage.new AVERAGING_WINDOW
    avgPM10 := RollingAverage.new AVERAGING_WINDOW }

/-- `Proc_ParticleSensor::setup()`: the local array has 256 elements and the
read asks for `sizeof(Buffer)` bytes.  `Serial.begin` and `Serial.setTimeout`
are not recorded. -/
def setup (s : Proc_ParticleSensor) : Proc_ParticleSensor × List Event :=
  (s, [Event.write PMS7003_cmdPassiveEnable 7, Event.flush,
    Event.write PMS7003_cmdPassiveRead 7, Event.flush, Event.readBytes 256 256])

/-- `Proc_ParticleSensor::getPM01()`. -/
def getPM01 (s : Proc_ParticleSensor) : ℚ × Proc_ParticleSensor :=
  (s.avgPM01.meanCall.1, { s with avgPM01 := s.avgPM01.meanCall.2 })

/-- `Proc_ParticleSensor::getPM2_5()`. -/
def getPM2_5 (s : Proc_ParticleSensor) : ℚ × Proc_ParticleSensor :=
  (s.avgPM2_5.meanCall.1, { s with avgPM2_5 := s.avgPM2_5.meanCall.2 })

/-- `Proc_ParticleSensor::getPM10()`. -/
def getPM10 (s : Proc_ParticleSensor) : ℚ × Proc_ParticleSensor :=
  (s.avgPM10.meanCall.1, { s with avgPM10 := s.avgPM10.meanCall.2 })

/-- A 32-byte response that `service` accepts. -/
def Accepts (Buffer : List Byte) : Prop :=
  Buffer.length = 32 ∧ byteAt Buffer 0 = 0x42 ∧ byteAt Buffer 1 = 0x4D ∧
    verifyChecksum Buffer 32 = some 1

/-- The states reached from construction by `setup()` and then any number of
`service()` cycles, each on a 32-byte response. -/
inductive Reachable (W : Nat) : Proc_ParticleSensor → Prop
  | afterSetup : Reachable W (setup (new W)).1
  | afterService (Buffer : List Byte) (s : Proc_ParticleSensor)
      (out : Proc_ParticleSensor × List Event) :
      Reachable W s → Buffer.length = 32 → service Buffer s = some out → Reachable W out.1

end Proc_ParticleSensor

namespace Proc_CO2Sensor

/-- The constructor of `Proc_CO2Sensor`. -/
def new (AVERAGING_WINDOW : Nat) : Proc_CO2Sensor :=
  { avgCO2 := RollingAverage.new AVERAGING_WINDOW }

/-- `Proc_CO2Sensor::setup()`: the local array `response` has 32 elements and
the read asks for `MHZ19_RESPONSE_SIZE` bytes.  `co2.begin` is not recorded. -/
def setup (s : Proc_CO2Sensor) : Proc_CO2Sensor × List Event :=
  (s, [Event.write MHZ19_cmdRead MHZ19_COMMAND_SIZE, Event.readBytes 32 MHZ19_RESPONSE_SIZE])

/-- `Proc_CO2Sensor::getCO2()`. -/
def getCO2 (s : Proc_CO2Sensor) : ℚ × Proc_CO2Sensor :=
  (s.avgCO2.meanCall.1, { s with avgCO2 := s.avgCO2.meanCall.2 })

/-- A 9-byte response that `service` accepts. -/
def Accepts (Buffer : List Byte) : Prop :=
  Buffer.length = 9 ∧ byteAt Buffer 0 = 0xFF ∧ byteAt Buffer 1 = 0x86

/-- The states reached from construction by `setup()` and then any number of
`service()` cycles, each on a 9-byte response. -/
inductive Reachable (W : Nat) : Proc_CO2Sensor → Prop
  | afterSetup : Reachable W (setup (new W)).1
  | afterService (Buffer : List Byte) (s : Proc_CO2Sensor)
      (out : Proc_CO2Sensor × List Event) :
      Reachable W s → Buffer.length = 9 → service Buffer s = some out → Reachable W out.1

end Proc_CO2Sensor

namespace Proc_GeigerSensor

/-- The constructor of `Proc_GeigerSensor`: the average holds
`AVERAGING_WINDOW * 2` samples; `counts` and `lastCountReset` start with
whatever the class declaration (outside the sources) gives them. -/
def new (AVERAGING_WINDOW : Nat) (counts : Int) (lastCountReset : Nat) : Proc_GeigerSensor :=
  { counts := counts
    lastCountReset := lastCountReset
    avgCPM := RollingAverage.new (AVERAGING_WINDOW * 2) }

/-- `Proc_GeigerSensor::setup()`: `counts = 0; avgCPM.push(10.0);`.  The
registration of the interrupt handler is not recorded. -/
def setup (s : Proc_GeigerSensor) : Proc_GeigerSensor :=
  { counts := 0
    lastCountReset := s.lastCountReset
    avgCPM := s.avgCPM.push 10.0 }

/-- `Proc_GeigerSensor::getCPM()`. -/
def getCPM (s : Proc_GeigerSensor) : ℚ × Proc_GeigerSensor :=
  (s.avgCPM.meanCall.1, { s with avgCPM := s.avgCPM.meanCall.2 })

/-- `Proc_GeigerSensor::getRadiation()`. -/
def getRadiation (s : Proc_GeigerSensor) : ℚ × Proc_GeigerSensor :=
  (s.avgCPM.meanCall.1 / (LND712_CONV_FACTOR : ℚ), { s with avgCPM := s.avgCPM.meanCall.2 })

/-- `Proc_GeigerSensor::onTubeEvent()`, the body of the interrupt handler:
`counts++`. -/
def onTubeEvent (s : Proc_GeigerSensor) : Proc_GeigerSensor :=
  { s with counts := s.counts + 1 }

/-- The handler run `n` times in a row. -/
def pulses : Nat → Proc_GeigerSensor → Proc_GeigerSensor
  | 0, s => s
  | n + 1, s => onTubeEvent (pulses n s)

/-- The first part of `service()`, up to and including the push (lines 505 to
545): `counts` is read here, once, when the interval guard lets the cycle
through, and nothing is written to it. -/
def serviceMeasure (FAST_SAMPLE_PERIOD : Nat) (millis1 : Nat) (s : Proc_GeigerSensor) :
    Proc_GeigerSensor :=
  let interval : Nat := elapsed millis1 s.lastCountReset
  let avgCPM : RollingAverage :=
    if ((interval : ℚ) < (FAST_SAMPLE_PERIOD : ℚ) * 0.9) ∨ (interval > FAST_SAMPLE_PERIOD * 2) then
      s.avgCPM
    else if interval = 0 then
      s.avgCPM
    else
      let thisCPM : ℚ := thisCPM s.counts interval
      if thisCPM > 100000 ∨ thisCPM < 0 then
        s.avgCPM
      else
        s.avgCPM.push thisCPM
  { s with avgCPM := avgCPM }

/-- The last part of `service()` (lines 548 and 549):
`lastCountReset = millis(); counts = 0;`. -/
def serviceReset (millis2 : Nat) (s : Proc_GeigerSensor) : Proc_GeigerSensor :=
  { s with lastCountReset := millis2, counts := 0 }

/-- One execution of `service()` with the interrupt handler running `a` times
before `counts` is read for the rate, `b` times after that read and before
`counts = 0`, and `c` times after `counts = 0`.  Nothing in `service()`
disables interrupts, so all three are possible. -/
def serviceInterleaved (FAST_SAMPLE_PERIOD : Nat) (millis1 millis2 : Nat) (a b c : Nat)
    (s : Proc_GeigerSensor) : Proc_GeigerSensor :=
  pulses c (serviceReset millis2 (pulses b (serviceMeasure FAST_SAMPLE_PERIOD millis1 (pulses a s))))

/-- A value that `service` pushes: the rate `thisCPM` of some count over some
non-zero interval inside the window, itself within `0 .. 100000`. -/
def Accepted (FAST_SAMPLE_PERIOD : Nat) (v : ℚ) : Prop :=
  ∃ (counts : Int) (interval : Nat),
    ¬ (((interval : ℚ) < (FAST_SAMPLE_PERIOD : ℚ) * 0.9) ∨ (interval > FAST_SAMPLE_PERIOD * 2)) ∧
    interval ≠ 0 ∧
    ¬ (thisCPM counts interval > 100000 ∨ thisCPM counts interval < 0) ∧
    v = thisCPM counts interval

/-- The states reached from construction by `setup()` and then any number of
`service()` cycles and interrupts. -/
inductive Reachable (P W : Nat) : Proc_GeigerSensor → Prop
  | afterSetup (counts : Int) (lastCountReset : Nat) :
      Reachable P W (setup (new W counts lastCountReset))
  | afterService (millis1 millis2 : Nat) (s : Proc_GeigerSensor) :
      Reachable P W s → Reachable P W (service P millis1 millis2 s)
  | afterPulse (s : Proc_GeigerSensor) : Reachable P W s → Reachable P W (onTubeEvent s)

end Proc_GeigerSensor

namespace Proc_MultiGasSensor

/-- The constructor of `Proc_MultiGasSensor`. -/
def new (AVERAGING_WINDOW : Nat) : Proc_MultiGasSensor :=
  { avgNH3 := RollingAverage.new AVERAGING_WINDOW
    avgCO := RollingAverage.new AVERAGING_WINDOW
    avgNO2 := RollingAverage.new AVERAGING_WINDOW
    avgC3H8 := RollingAverage.new AVERAGING_WINDOW
    avgC4H10 := RollingAverage.new AVERAGING_WINDOW
    avgCH4 := RollingAverage.new AVERAGING_WINDOW
    avgH2 := RollingAverage.new AVERAGING_WINDOW
    avgC2H5OH := RollingAverage.new AVERAGING_WINDOW }

/-- `Proc_MultiGasSensor::setup()`: the device is started and `delay(1000)`
is called; the calls on the gas library and the version log are not
recorded. -/
def setup (s : Proc_MultiGasSensor) : Proc_MultiGasSensor × List Event :=
  (s, [Event.delay 1000])

/-- `Proc_MultiGasSensor::getNH3()`. -/
def getNH3 (s : Proc_MultiGasSensor) : ℚ × Proc_MultiGasSensor :=
  (s.avgNH3.meanCall.1, { s with avgNH3 := s.avgNH3.meanCall.2 })

/-- `Proc_MultiGasSensor::getCO()`. -/
def getCO (s : Proc_MultiGasSensor) : ℚ × Proc_MultiGasSensor :=
  (s.avgCO.meanCall.1, { s with avgCO := s.avgCO.meanCall.2 })

/-- `Proc_MultiGasSensor::getNO2()`. -/
def getNO2 (s : Proc_MultiGasSensor) : ℚ × Proc_MultiGasSensor :=
  (s.avgNO2.meanCall.1, { s with avgNO2 := s.avgNO2.meanCall.2 })

/-- `Proc_MultiGasSensor::getC3H8()`. -/
def getC3H8 (s : Proc_MultiGasSensor) : ℚ × Proc_MultiGasSensor :=
  (s.avgC3H8.meanCall.1, { s with avgC3H8 := s.avgC3H8.meanCall.2 })

/-- `Proc_MultiGasSensor::getC4H10()`. -/
def getC4H10 (s : Proc_MultiGasSensor) : ℚ × Proc_MultiGasSensor :=
  (s.avgC4H10.meanCall.1, { s with avgC4H10 := s.avgC4H10.meanCall.2 })

/-- `Proc_MultiGasSensor::getCH4()`. -/
def getCH4 (s : Proc_MultiGasSensor) : ℚ × Proc_MultiGasSensor :=
  (s.avgCH4.meanCall.1, { s with avgCH4 := s.avgCH4.meanCall.2 })

/-- `Proc_MultiGasSensor::getH2()`. -/
def getH2 (s : Proc_MultiGasSensor) : ℚ × Proc_MultiGasSensor :=
  (s.avgH2.meanCall.1, { s with avgH2 := s.avgH2.meanCall.2 })

/-- `Proc_MultiGasSensor::getC2H5OH()`. -/
def getC2H5OH (s : Proc_MultiGasSensor) : ℚ × Proc_MultiGasSensor :=
  (s.avgC2H5OH.meanCall.1, { s with avgC2H5OH := s.avgC2H5OH.meanCall.2 })

/-- The states reached from construction by `setup()` and then any number of
`service()` cycles. -/
inductive Reachable (W : Nat) : Proc_MultiGasSensor → Prop
  | afterSetup : Reachable W (setup (new W)).1
  | afterService (nh3 co no2 c3h8 c4h10 ch4 h2 c2h5oh : ℚ) (s : Proc_MultiGasSensor) :
      Reachable W s → Reachable W (service nh3 co no2 c3h8 c4h10 ch4 h2 c2h5oh s)

end Proc_MultiGasSensor

/-! ## VOC sensor process -/

/-- The data members of `Proc_VOCSensor`. -/
structure Proc_VOCSensor where
  avgVOC : RollingAverage
deriving DecidableEq

namespace Proc_VOCSensor

/-- The constructor of `Proc_VOCSensor`: `avgVOC(60)`. -/
def new : Proc_VOCSensor :=
  { avgVOC := RollingAverage.new 60 }

/-- `Proc_VOCSensor::setup()`: nothing is done. -/
def setup (s : Proc_VOCSensor) : Proc_VOCSensor := s

/-- `Proc_VOCSensor::service()`; `voc` is the value of `analogRead(VOC_PIN)`. -/
def service (voc : ℚ) (s : Proc_VOCSensor) : Proc_VOCSensor :=
  { avgVOC := s.avgVOC.push voc }

/-- `Proc_VOCSensor::getVOC()`. -/
def getVOC (s : Proc_VOCSensor) : ℚ × Proc_VOCSensor :=
  (s.avgVOC.meanCall.1, { s with avgVOC := s.avgVOC.meanCall.2 })

end Proc_VOCSensor

/-! ## Combo temperature and humidity sensor process (HDC1080) -/

/-- The data members of `Proc_ComboTemperatureHumiditySensor`. -/
structure Proc_ComboTemperatureHumiditySensor where
  avgTemperature : RollingAverage
  avgHumidity : RollingAverage
deriving DecidableEq

namespace Proc_ComboTemperatureHumiditySensor

/-- The constructor of `Proc_ComboTemperatureHumiditySensor`. -/
def new (AVERAGING_WINDOW : Nat) : Proc_ComboTemperatureHumiditySensor :=
  { avgTemperature := RollingAverage.new AVERAGING_WINDOW
    avgHumidity := RollingAverage.new AVERAGING_WINDOW }

/-- `Proc_ComboTemperatureHumiditySensor::setup()`; `deviceId` is the value of
`hdc1080.readDeviceId()`. -/
def setup (deviceId : Nat) (s : Proc_ComboTemperatureHumiditySensor) :
    Proc_ComboTemperatureHumiditySensor × List Event :=
  if ¬ (deviceId = 0x1050) then (s, [Event.errLog "Could not find a valid hdc1080 sensor"])
  else (s, [])

/-- `Proc_ComboTemperatureHumiditySensor::service()`; `temp` and `humidity`
are the values of `hdc1080.readTemperature()` and `hdc1080.readHumidity()`. -/
def service (temp humidity : ℚ) (s : Proc_ComboTemperatureHumiditySensor) :
    Proc_ComboTemperatureHumiditySensor :=
  { avgTemperature := s.avgTemperature.push (temp - 1.5)
    avgHumidity := s.avgHumidity.push humidity }

/-- `Proc_ComboTemperatureHumiditySensor::getTemperature()`. -/
def getTemperature (s : Proc_ComboTemperatureHumiditySensor) :
    ℚ × Proc_ComboTemperatureHumiditySensor :=
  (s.avgTemperature.meanCall.1, { s with avgTemperature := s.avgTemperature.meanCall.2 })

/-- `Proc_ComboTemperatureHumiditySensor::getHumidity()`. -/
def getHumidity (s : Proc_ComboTemperatureHumiditySensor) :
    ℚ × Proc_ComboTemperatureHumiditySensor :=
  (s.avgHumidity.meanCall.1, { s with avgHumidity := s.avgHumidity.meanCall.2 })

end Proc_ComboTemperatureHumiditySensor

/-! ## Combo pressure and humidity sensor process (BME280) -/

/-- The data members of `Proc_ComboPressureHumiditySensor`. -/
structure Proc_ComboPressureHumiditySensor where
  avgPressure : RollingAverage
  avgHumidity : RollingAverage
  avgTemperature : RollingAverage
deriving DecidableEq

namespace Proc_ComboPressureHumiditySensor

/-- The constructor of `Proc_ComboPressureHumiditySensor`. -/
def new (AVERAGING_WINDOW : Nat) : Proc_ComboPressureHumiditySensor :=
  { avgPressure := RollingAverage.new AVERAGING_WINDOW
    avgHumidity := RollingAverage.new AVERAGING_WINDOW
    avgTemperature := RollingAverage.new AVERAGING_WINDOW }

/-- `Proc_ComboPressureHumiditySensor::setup()`; `found` is the value of
`bme.begin(0x76)`. -/
def setup (found : Bool) (s : Proc_ComboPressureHumiditySensor) :
    Proc_ComboPressureHumiditySensor × List Event :=
  if ¬ (found = true) then (s, [Event.errLog "No valid BME280 sensor"]) else (s, [])

/-- `Proc_ComboPressureHumiditySensor::service()`; `rawPressure`, `humidity`
and `temperature` are the values of `bme.readPressure()`, `bme.readHumidity()`
and `bme.readTemperature()`. -/
def service (rawPressure humidity temperature : ℚ) (s : Proc_ComboPressureHumiditySensor) :
    Proc_ComboPressureHumiditySensor :=
  let pressure : ℚ := rawPressure / 100.0
  { avgPressure := s.avgPressure.push pressure
    avgHumidity := s.avgHumidity.push humidity
    avgTemperature := s.avgTemperature.push temperature }

/-- `Proc_ComboPressureHumiditySensor::getPressure()`. -/
def getPressure (s : Proc_ComboPressureHumiditySensor) :
    ℚ × Proc_ComboPressureHumiditySensor :=
  (s.avgPressure.meanCall.1, { s with avgPressure := s.avgPressure.meanCall.2 })

/-- `Proc_ComboPressureHumiditySensor::getHumidity()`. -/
def getHumidity (s : Proc_ComboPressureHumiditySensor) :
    ℚ × Proc_ComboPressureHumiditySensor :=
  (s.avgHumidity.meanCall.1, { s with avgHumidity := s.avgHumidity.meanCall.2 })

/-- `Proc_ComboPressureHumiditySensor::getTemperature()`. -/
def getTemperature (s : Proc_ComboPressureHumiditySensor) :
    ℚ × Proc_ComboPressureHumiditySensor :=
  (s.avgTemperature.meanCall.1, { s with avgTemperature := s.avgTemperature.meanCall.2 })

end Proc_ComboPressureHumiditySensor

/-! ## Properties used in the statements -/

/-- A getter has no side effect and is idempotent: the process after the call
is the process before it, and a second call right after returns the same
value. -/
def SideEffectFree {σ : Type} (getter : σ → ℚ × σ) : Prop :=
  ∀ s : σ, (getter s).2 = s ∧ (getter (getter s).2).1 = (getter s).1

/-- A `readBytes` call asks for no more bytes than the destination array
holds; every other call is harmless. -/
def Event.fitsBuffer : Event → Bool
  | Event.readBytes capacity length => decide (length ≤ capacity)
  | _ => true

/-- Every sample held by the three averages is the field of an accepted
response: PM1.0 at bytes 4-5, PM2.5 at bytes 6-7, PM10 at bytes 8-9. -/
def Proc_ParticleSensor.HoldsAccepted (s : Proc_ParticleSensor) : Prop :=
  s.avgPM01.AllSamples (fun v => ∃ buf, Proc_ParticleSensor.Accepts buf ∧
      v = ((256 * byteAt buf 4 + byteAt buf 5 : Nat) : ℚ)) ∧
    s.avgPM2_5.AllSamples (fun v => ∃ buf, Proc_ParticleSensor.Accepts buf ∧
      v = ((256 * byteAt buf 6 + byteAt buf 7 : Nat) : ℚ)) ∧
    s.avgPM10.AllSamples (fun v => ∃ buf, Proc_ParticleSensor.Accepts buf ∧
      v = ((256 * byteAt buf 8 + byteAt buf 9 : Nat) : ℚ))

/-- Every sample held by `avgCO2` is `256 * byte2 + byte3` of an accepted
response. -/
def Proc_CO2Sensor.HoldsAccepted (s : Proc_CO2Sensor) : Prop :=
  s.avgCO2.AllSamples (fun v => ∃ buf, Proc_CO2Sensor.Accepts buf ∧
    v = ((256 * byteAt buf 2 + byteAt buf 3 : Nat) : ℚ))

/-- Every sample held by `avgCPM` is the seed 10 or a rate that `service`
accepts. -/
def Proc_GeigerSensor.HoldsAcceptedOrSeed (P : Nat) (s : Proc_GeigerSensor) : Prop :=
  s.avgCPM.AllSamples (fun v => v = 10 ∨ Proc_GeigerSensor.Accepted P v)

/-- Every sample held by the eight averages is a reading that is `≥ 0`. -/
def Proc_MultiGasSensor.HoldsAccepted (s : Proc_MultiGasSensor) : Prop :=
  s.avgNH3.AllSamples (fun v => 0 ≤ v) ∧
    s.avgCO.AllSamples (fun v => 0 ≤ v) ∧
    s.avgNO2.AllSamples (fun v => 0 ≤ v) ∧
    s.avgC3H8.AllSamples (fun v => 0 ≤ v) ∧
    s.avgC4H10.AllSamples (fun v => 0 ≤ v) ∧
    s.avgCH4.AllSamples (fun v => 0 ≤ v) ∧
    s.avgH2.AllSamples (fun v => 0 ≤ v) ∧
    s.avgC2H5OH.AllSamples (fun v => 0 ≤ v)

/-! ## Theorems -/

/-- A read inside the buffer succeeds and yields the byte there. -/
theorem exists_byte (buf : List Byte) (i : Nat) (h : i < buf.length) :
    ∃ b : Byte, buf[i]? = some b ∧ byteAt buf i = b.val :=
  ⟨buf[i], List.getElem?_eq_getElem h, by simp [byteAt, List.getD, List.getElem?_eq_getElem h]⟩

/-- Pushing a sample never leaves a rolling average as it was: the running
count of pushes grows by one. -/
theorem RollingAverage.push_ne (a : RollingAverage) (v : ℚ) : a.push v ≠ a := by
  intro h
  have h2 : (a.push v).pushed = a.pushed := by rw [h]
  simp [RollingAverage.push] at h2

/-- Rounding never goes below the floor. -/
theorem roundHalfEven_floor_le (q : ℚ) : ⌊q⌋ ≤ roundHalfEven q := by
  unfold roundHalfEven
  split_ifs <;> omega

/-- An integer rounds to itself. -/
theorem roundHalfEven_intCast (n : Int) : roundHalfEven (n : ℚ) = n := by
  unfold roundHalfEven
  simp

/-- A number within one half of an integer rounds to it. -/
theorem roundHalfEven_eq_of_abs_lt (q : ℚ) (n : Int) (h : |q - n| < 1 / 2) :
    roundHalfEven q = n := by
  rw [abs_lt] at h
  obtain ⟨h1, h2⟩ := h
  by_cases hq : (n : ℚ) ≤ q
  · have hf : ⌊q⌋ = n := by
      rw [Int.floor_eq_iff]
      constructor
      · exact hq
      · linarith
    unfold roundHalfEven
    rw [hf, if_pos (by linarith)]
  · have hq2 : q < n := not_le.mp hq
    have hf : ⌊q⌋ = n - 1 := by
      rw [Int.floor_eq_iff]
      push_cast
      constructor <;> linarith
    unfold roundHalfEven
    rw [hf]
    push_cast
    rw [if_neg (by linarith), if_pos (by linarith)]
    ring

/-- Rounding keeps a non-negative number non-negative. -/
theorem roundToBits_nonneg (p : Nat) (x : ℚ) (h : 0 ≤ x) : 0 ≤ roundToBits p x := by
  unfold roundToBits
  split_ifs with h0
  · exact le_refl 0
  · have hpow : (0 : ℚ) < 2 ^ (Int.log 2 |x| - ((p : Int) - 1)) := zpow_pos (by norm_num) _
    have hq : 0 ≤ x / 2 ^ (Int.log 2 |x| - ((p : Int) - 1)) := div_nonneg h hpow.le
    have hfl : (0 : Int) ≤ ⌊x / 2 ^ (Int.log 2 |x| - ((p : Int) - 1))⌋ := Int.floor_nonneg.mpr hq
    have hr := roundHalfEven_floor_le (x / 2 ^ (Int.log 2 |x| - ((p : Int) - 1)))
    have hr2 : (0 : ℚ) ≤ (roundHalfEven (x / 2 ^ (Int.log 2 |x| - ((p : Int) - 1))) : ℚ) := by
      exact_mod_cast le_trans hfl hr
    exact mul_nonneg hr2 hpow.le

/-- Rounding keeps a positive number positive. -/
theorem roundToBits_pos (p : Nat) (hp : 1 ≤ p) (x : ℚ) (h : 0 < x) : 0 < roundToBits p x := by
  unfold roundToBits
  rw [if_neg h.ne']
  have hpow : (0 : ℚ) < 2 ^ (Int.log 2 |x| - ((p : Int) - 1)) := zpow_pos (by norm_num) _
  have habs : |x| = x := abs_of_pos h
  have hlog : ((2 : ℕ) : ℚ) ^ Int.log 2 |x| ≤ |x| := Int.zpow_log_le_self (by norm_num) (by rw [habs]; exact h)
  have hq : (1 : ℚ) ≤ x / 2 ^ (Int.log 2 |x| - ((p : Int) - 1)) := by
    rw [le_div_iff₀ hpow, one_mul]
    have h1 : (2 : ℚ) ^ (Int.log 2 |x| - ((p : Int) - 1)) ≤ 2 ^ Int.log 2 |x| := by
      apply zpow_le_zpow_right₀ (by norm_num)
      have : (1 : Int) ≤ (p : Int) := by exact_mod_cast hp
      omega
    have h2 : (2 : ℚ) ^ Int.log 2 |x| ≤ x := by
      rw [habs] at hlog
      rw [habs]
      exact_mod_cast hlog
    linarith
  have hfl : (1 : Int) ≤ ⌊x / 2 ^ (Int.log 2 |x| - ((p : Int) - 1))⌋ := by
    rw [Int.le_floor]
    exact_mod_cast hq
  have hr := roundHalfEven_floor_le (x / 2 ^ (Int.log 2 |x| - ((p : Int) - 1)))
  have hr2 : (0 : ℚ) < (roundHalfEven (x / 2 ^ (Int.log 2 |x| - ((p : Int) - 1))) : ℚ) := by
    exact_mod_cast lt_of_lt_of_le zero_lt_one (le_trans hfl hr)
  exact mul_pos hr2 hpow

/-- The binade of a number is fixed by the two powers of two around it. -/
theorem log_eq_of_bounds (x : ℚ) (e : Int) (h1 : (2 : ℚ) ^ e ≤ x) (h2 : x < 2 ^ (e + 1)) :
    Int.log 2 x = e := by
  have hx : 0 < x := lt_of_lt_of_le (zpow_pos (by norm_num) _) h1
  have a : e ≤ Int.log 2 x := by
    rw [← Int.zpow_le_iff_le_log (by norm_num) hx]
    exact_mod_cast h1
  have b : Int.log 2 x < e + 1 := by
    rw [← Int.lt_zpow_iff_log_lt (by norm_num) hx]
    exact_mod_cast h2
  omega

/-- Rounding with the binade known. -/
theorem roundToBits_eq (p : Nat) (x : ℚ) (e : Int) (h1 : (2 : ℚ) ^ e ≤ |x|)
    (h2 : |x| < 2 ^ (e + 1)) :
    roundToBits p x = (roundHalfEven (x / 2 ^ (e - ((p : Int) - 1))) : ℚ) *
      2 ^ (e - ((p : Int) - 1)) := by
  have hx : x ≠ 0 := by
    intro h0
    rw [h0, abs_zero] at h1
    exact absurd h1 (not_le.mpr (zpow_pos (by norm_num) _))
  unfold roundToBits
  rw [if_neg hx, log_eq_of_bounds |x| e h1 h2]

/-- An integer of at most `p` bits is not changed by rounding to `p` bits. -/
theorem roundToBits_intCast (p : Nat) (n : Int) (h : |n| < 2 ^ p) :
    roundToBits p (n : ℚ) = n := by
  by_cases h0 : n = 0
  · simp [roundToBits, h0]
  · have hn : (0 : ℚ) < |(n : ℚ)| := abs_pos.mpr (by exact_mod_cast h0)
    have hn1 : (1 : ℚ) ≤ |(n : ℚ)| := by
      have : (1 : Int) ≤ |n| := Int.one_le_abs h0
      exact_mod_cast this
    have hlog0 : 0 ≤ Int.log 2 |(n : ℚ)| := by
      rw [← Int.zpow_le_iff_le_log (by norm_num) hn]
      simpa using hn1
    have hlogp : Int.log 2 |(n : ℚ)| < p := by
      rw [← Int.lt_zpow_iff_log_lt (by norm_num) hn]
      have : ((|n| : Int) : ℚ) < ((2 ^ p : Int) : ℚ) := by exact_mod_cast h
      simpa using this
    obtain ⟨k, hk⟩ : ∃ k : Nat, Int.log 2 |(n : ℚ)| - ((p : Int) - 1) = -(k : Int) :=
      ⟨((p : Int) - 1 - Int.log 2 |(n : ℚ)|).toNat, by omega⟩
    have hx : (n : ℚ) ≠ 0 := by exact_mod_cast h0
    unfold roundToBits
    rw [if_neg hx, hk]
    have hpow : (2 : ℚ) ^ (-(k : Int)) = ((2 : ℚ) ^ k)⁻¹ := by
      rw [zpow_neg, zpow_natCast]
    have hk0 : (2 : ℚ) ^ k ≠ 0 := pow_ne_zero _ (by norm_num)
    have hdiv : (n : ℚ) / 2 ^ (-(k : Int)) = ((n * 2 ^ k : Int) : ℚ) := by
      rw [hpow]
      push_cast
      field_simp
    rw [hdiv, roundHalfEven_intCast, hpow]
    push_cast
    field_simp

/-- An integer of at most 24 bits is a `float`. -/
theorem toFloat_intCast (n : Int) (h : |n| < 2 ^ 24) : toFloat (n : ℚ) = n :=
  roundToBits_intCast 24 n h

/-- An integer of at most 53 bits is a `double`. -/
theorem toDouble_intCast (n : Int) (h : |n| < 2 ^ 53) : toDouble (n : ℚ) = n :=
  roundToBits_intCast 53 n h

/-- The rate of a non-negative count is non-negative. -/
theorem thisCPM_nonneg (counts : Int) (interval : Nat) (h : 0 ≤ counts) :
    0 ≤ Proc_GeigerSensor.thisCPM counts interval := by
  have hc : (0 : ℚ) ≤ (counts : ℚ) := by exact_mod_cast h
  have h1 : 0 ≤ toFloat (counts : ℚ) := roundToBits_nonneg 24 _ hc
  have h2 : 0 ≤ toDouble (toFloat (counts : ℚ) * 60000.0) :=
    roundToBits_nonneg 53 _ (mul_nonneg h1 (by norm_num))
  have h3 : 0 ≤ toFloat (interval : ℚ) := roundToBits_nonneg 24 _ (by positivity)
  exact roundToBits_nonneg 24 _ (roundToBits_nonneg 53 _ (div_nonneg h2 h3))

/-- When count and interval have at most 24 bits and the quotient
`count * 60000 / interval` is an integer of at most 24 bits, the rate is that
quotient: no rounding occurs. -/
theorem thisCPM_exact (counts : Int) (interval : Nat) (q : Int) (hc : |counts| < 2 ^ 24)
    (hi0 : 0 < interval) (hi : interval < 2 ^ 24) (hq : counts * 60000 = q * interval)
    (hq2 : |q| < 2 ^ 24) : Proc_GeigerSensor.thisCPM counts interval = q := by
  have hprod : |counts * 60000| < 2 ^ 53 := by
    rw [abs_mul]
    have : |(60000 : Int)| = 60000 := by norm_num
    rw [this]
    have h24 : (2 : Int) ^ 24 * 60000 < 2 ^ 53 := by norm_num
    nlinarith [abs_nonneg counts]
  have hiq : ((interval : ℕ) : ℚ) = ((interval : Int) : ℚ) := by push_cast; rfl
  have hii : |(interval : Int)| < 2 ^ 24 := by
    rw [abs_of_nonneg (by positivity)]
    exact_mod_cast hi
  have e1 : toFloat (counts : ℚ) * 60000.0 = ((counts * 60000 : Int) : ℚ) := by
    rw [toFloat_intCast counts hc]
    push_cast
    norm_num
  have hine : ((interval : Int) : ℚ) ≠ 0 := by
    have : (interval : Int) ≠ 0 := by omega
    exact_mod_cast this
  have e2 : ((counts * 60000 : Int) : ℚ) / ((interval : Int) : ℚ) = (q : ℚ) := by
    rw [hq]
    push_cast
    field_simp
  have hq53 : |q| < 2 ^ 53 := lt_trans hq2 (by norm_num)
  unfold Proc_GeigerSensor.thisCPM
  rw [e1, toDouble_intCast _ hprod, hiq, toFloat_intCast _ hii, e2, toDouble_intCast q hq53,
    toFloat_intCast q hq2]

/-- With 10000002 counts in 6000001 ms the exact rate is above 100000, and
the `float` the code computes is 100000. -/
theorem thisCPM_rounds_down : Proc_GeigerSensor.thisCPM 10000002 6000001 = 100000 := by
  have e1 : toFloat ((10000002 : Int) : ℚ) * 60000.0 = ((600000120000 : Int) : ℚ) := by
    rw [toFloat_intCast 10000002 (by norm_num)]
    norm_num
  have e2 : toFloat ((6000001 : ℕ) : ℚ) = 6000001 := by
    have h := toFloat_intCast 6000001 (by norm_num)
    simpa using h
  have e3 : toDouble (600000120000 / 6000001) = 6871947902664884 * 2 ^ (-36 : Int) := by
    have h := roundToBits_eq 53 (600000120000 / 6000001) 16 (by norm_num [abs_of_pos])
      (by norm_num [abs_of_pos])
    have hr : roundHalfEven (600000120000 / 6000001 / 2 ^ ((16 : Int) - (((53 : ℕ) : Int) - 1)))
        = 6871947902664884 := by
      apply roundHalfEven_eq_of_abs_lt
      norm_num [abs_lt]
    rw [hr] at h
    rw [toDouble, h]
    norm_num
  have e4 : toFloat (6871947902664884 * 2 ^ (-36 : Int)) = 100000 := by
    have h := roundToBits_eq 24 (6871947902664884 * 2 ^ (-36 : Int)) 16
      (by norm_num [abs_of_pos]) (by norm_num [abs_of_pos])
    have hr : roundHalfEven (6871947902664884 * 2 ^ (-36 : Int) /
        2 ^ ((16 : Int) - (((24 : ℕ) : Int) - 1))) = 12800000 := by
      apply roundHalfEven_eq_of_abs_lt
      norm_num [abs_lt]
    rw [hr] at h
    rw [toFloat, h]
    norm_num
  unfold Proc_GeigerSensor.thisCPM
  rw [e1, toDouble_intCast _ (by norm_num)]
  simp only [Int.cast_ofNat]
  rw [e2, e3, e4]

/-- Rounding to the nearest integer moves a number by at most one half. -/
theorem roundHalfEven_abs_sub_le (q : ℚ) : |(roundHalfEven q : ℚ) - q| ≤ 1 / 2 := by
  have h1 : (⌊q⌋ : ℚ) ≤ q := Int.floor_le q
  have h2 : q < (⌊q⌋ : ℚ) + 1 := Int.lt_floor_add_one q
  unfold roundHalfEven
  split_ifs with a b c
  · rw [abs_le]
    constructor <;> linarith
  · push_cast
    rw [abs_le]
    constructor <;> linarith
  · have hb : q - ⌊q⌋ = 1 / 2 := le_antisymm (not_lt.mp b) (not_lt.mp a)
    rw [abs_le]
    constructor <;> linarith
  · have hb : q - ⌊q⌋ = 1 / 2 := le_antisymm (not_lt.mp b) (not_lt.mp a)
    push_cast
    rw [abs_le]
    constructor <;> linarith

/-- Rounding to `p` bits has a relative error of at most `2 ^ (-p)`. -/
theorem roundToBits_abs_sub_le (p : Nat) (x : ℚ) :
    |roundToBits p x - x| ≤ |x| * 2 ^ (-(p : Int)) := by
  by_cases h0 : x = 0
  · simp [roundToBits, h0]
  · have hx : 0 < |x| := abs_pos.mpr h0
    have hu : (0 : ℚ) < 2 ^ (Int.log 2 |x| - ((p : Int) - 1)) := zpow_pos (by norm_num) _
    have hlog : (2 : ℚ) ^ Int.log 2 |x| ≤ |x| := by
      have := Int.zpow_log_le_self (b := 2) (by norm_num) hx
      exact_mod_cast this
    have hr := roundHalfEven_abs_sub_le (x / 2 ^ (Int.log 2 |x| - ((p : Int) - 1)))
    have e : roundToBits p x - x =
        ((roundHalfEven (x / 2 ^ (Int.log 2 |x| - ((p : Int) - 1))) : ℚ) -
          x / 2 ^ (Int.log 2 |x| - ((p : Int) - 1))) * 2 ^ (Int.log 2 |x| - ((p : Int) - 1)) := by
      unfold roundToBits
      rw [if_neg h0]
      field_simp
    have hsplit : (2 : ℚ) ^ (Int.log 2 |x| - ((p : Int) - 1)) =
        2 ^ Int.log 2 |x| * 2 ^ (-(p : Int)) * 2 := by
      rw [show Int.log 2 |x| - ((p : Int) - 1) = Int.log 2 |x| + -(p : Int) + 1 by ring,
        zpow_add₀ (by norm_num), zpow_add₀ (by norm_num), zpow_one]
    have hp : (0 : ℚ) < 2 ^ (-(p : Int)) := zpow_pos (by norm_num) _
    rw [e, abs_mul, abs_of_pos hu]
    calc |(roundHalfEven (x / 2 ^ (Int.log 2 |x| - ((p : Int) - 1))) : ℚ) -
          x / 2 ^ (Int.log 2 |x| - ((p : Int) - 1))| * 2 ^ (Int.log 2 |x| - ((p : Int) - 1))
        ≤ 1 / 2 * 2 ^ (Int.log 2 |x| - ((p : Int) - 1)) :=
          mul_le_mul_of_nonneg_right hr hu.le
      _ = 2 ^ Int.log 2 |x| * 2 ^ (-(p : Int)) := by rw [hsplit]; ring
      _ ≤ |x| * 2 ^ (-(p : Int)) := mul_le_mul_of_nonneg_right hlog hp.le

/-- Rounding to `p` bits multiplies by a factor within `2 ^ (-p)` of 1. -/
theorem roundToBits_factor (p : Nat) (x : ℚ) :
    ∃ t : ℚ, |t| ≤ 2 ^ (-(p : Int)) ∧ roundToBits p x = x * (1 + t) := by
  by_cases h0 : x = 0
  · exact ⟨0, by simp [(zpow_pos (by norm_num : (0 : ℚ) < 2) _).le], by simp [roundToBits, h0]⟩
  · refine ⟨(roundToBits p x - x) / x, ?_, by field_simp⟩
    rw [abs_div, div_le_iff₀ (abs_pos.mpr h0), mul_comm]
    exact roundToBits_abs_sub_le p x


/-- The `float` rate is within a relative `2 ^ (-22)` of the exact quotient
`counts * 60000 / interval`. -/
theorem thisCPM_close (counts : Int) (interval : Nat) (hi : 0 < interval) :
    |Proc_GeigerSensor.thisCPM counts interval - (counts : ℚ) * 60000 / (interval : ℚ)| ≤
      |(counts : ℚ) * 60000 / (interval : ℚ)| / 4194304 := by
  have hiq : (0 : ℚ) < (interval : ℚ) := by exact_mod_cast hi
  have e24 : (2 : ℚ) ^ (-((24 : ℕ) : Int)) = 1 / 16777216 := by norm_num
  have e53 : (2 : ℚ) ^ (-((53 : ℕ) : Int)) = 1 / 9007199254740992 := by norm_num
  obtain ⟨t1, b1, h1⟩ := roundToBits_factor 24 (counts : ℚ)
  obtain ⟨t2, b2, h2⟩ := roundToBits_factor 53 (toFloat (counts : ℚ) * 60000.0)
  obtain ⟨t3, b3, h3⟩ := roundToBits_factor 24 (interval : ℚ)
  obtain ⟨t4, b4, h4⟩ := roundToBits_factor 53
    (toDouble (toFloat (counts : ℚ) * 60000.0) / toFloat (interval : ℚ))
  obtain ⟨t5, b5, h5⟩ := roundToBits_factor 24
    (toDouble (toDouble (toFloat (counts : ℚ) * 60000.0) / toFloat (interval : ℚ)))
  rw [e24] at b1 b3 b5
  rw [e53] at b2 b4
  rw [abs_le] at b1 b2 b3 b4 b5
  have hB : (0 : ℚ) < 1 + t3 := by linarith [b3.1]
  have hout : Proc_GeigerSensor.thisCPM counts interval =
      (counts : ℚ) * 60000 / (interval : ℚ) *
        ((1 + t1) * (1 + t2) * (1 + t4) * (1 + t5) / (1 + t3)) := by
    have e60 : (60000.0 : ℚ) = 60000 := by norm_num
    have k1 : toFloat (counts : ℚ) = (counts : ℚ) * (1 + t1) := h1
    have k2 : toDouble (toFloat (counts : ℚ) * 60000.0) =
        toFloat (counts : ℚ) * 60000.0 * (1 + t2) := h2
    have k3 : toFloat (interval : ℚ) = (interval : ℚ) * (1 + t3) := h3
    have k4 : toDouble (toDouble (toFloat (counts : ℚ) * 60000.0) / toFloat (interval : ℚ)) =
        toDouble (toFloat (counts : ℚ) * 60000.0) / toFloat (interval : ℚ) * (1 + t4) := h4
    have k5 : Proc_GeigerSensor.thisCPM counts interval =
        toDouble (toDouble (toFloat (counts : ℚ) * 60000.0) / toFloat (interval : ℚ)) *
          (1 + t5) := h5
    rw [k5, k4, k2, k3, k1, e60]
    field_simp
    ring
  have hA_hi : (1 + t1) * (1 + t2) * (1 + t4) * (1 + t5) ≤
      (1 + 1 / 16777216) * (1 + 1 / 9007199254740992) * (1 + 1 / 9007199254740992) *
        (1 + 1 / 16777216) := by
    have p1 : (0 : ℚ) ≤ 1 + t1 := by linarith [b1.1]
    have p2 : (0 : ℚ) ≤ 1 + t2 := by linarith [b2.1]
    have p4 : (0 : ℚ) ≤ 1 + t4 := by linarith [b4.1]
    have p5 : (0 : ℚ) ≤ 1 + t5 := by linarith [b5.1]
    have q1 : 1 + t1 ≤ 1 + 1 / 16777216 := by linarith [b1.2]
    have q2 : 1 + t2 ≤ 1 + 1 / 9007199254740992 := by linarith [b2.2]
    have q4 : 1 + t4 ≤ 1 + 1 / 9007199254740992 := by linarith [b4.2]
    have q5 : 1 + t5 ≤ 1 + 1 / 16777216 := by linarith [b5.2]
    gcongr
  have hA_lo : (1 - 1 / 16777216) * (1 - 1 / 9007199254740992) * (1 - 1 / 9007199254740992) *
        (1 - 1 / 16777216) ≤ (1 + t1) * (1 + t2) * (1 + t4) * (1 + t5) := by
    have q1 : (1 : ℚ) - 1 / 16777216 ≤ 1 + t1 := by linarith [b1.1]
    have q2 : (1 : ℚ) - 1 / 9007199254740992 ≤ 1 + t2 := by linarith [b2.1]
    have q4 : (1 : ℚ) - 1 / 9007199254740992 ≤ 1 + t4 := by linarith [b4.1]
    have q5 : (1 : ℚ) - 1 / 16777216 ≤ 1 + t5 := by linarith [b5.1]
    gcongr
  have hG : |(1 + t1) * (1 + t2) * (1 + t4) * (1 + t5) / (1 + t3) - 1| ≤ 1 / 4194304 := by
    rw [abs_le]
    constructor
    · rw [le_sub_iff_add_le, le_div_iff₀ hB]
      have n1 : (-(1 / 4194304) + 1) * (1 + t3) ≤
          (1 - 1 / 16777216) * (1 - 1 / 9007199254740992) * (1 - 1 / 9007199254740992) *
            (1 - 1 / 16777216 : ℚ) := by
        have : (-(1 / 4194304) + 1 : ℚ) * (1 + t3) ≤ (-(1 / 4194304) + 1) * (1 + 1 / 16777216) :=
          mul_le_mul_of_nonneg_left (by linarith [b3.2]) (by norm_num)
        refine le_trans this ?_
        norm_num
      exact le_trans n1 hA_lo
    · rw [sub_le_iff_le_add, div_le_iff₀ hB]
      have n1 : (1 + 1 / 16777216) * (1 + 1 / 9007199254740992) * (1 + 1 / 9007199254740992) *
            (1 + 1 / 16777216 : ℚ) ≤ (1 / 4194304 + 1) * (1 + t3) := by
        have : (1 / 4194304 + 1 : ℚ) * (1 - 1 / 16777216) ≤ (1 / 4194304 + 1) * (1 + t3) :=
          mul_le_mul_of_nonneg_left (by linarith [b3.1]) (by norm_num)
        refine le_trans ?_ this
        norm_num
      exact le_trans hA_hi n1
  rw [hout]
  have : (counts : ℚ) * 60000 / (interval : ℚ) *
        ((1 + t1) * (1 + t2) * (1 + t4) * (1 + t5) / (1 + t3)) -
      (counts : ℚ) * 60000 / (interval : ℚ) =
      (counts : ℚ) * 60000 / (interval : ℚ) *
        ((1 + t1) * (1 + t2) * (1 + t4) * (1 + t5) / (1 + t3) - 1) := by ring
  rw [this, abs_mul]
  calc |(counts : ℚ) * 60000 / (interval : ℚ)| *
        |(1 + t1) * (1 + t2) * (1 + t4) * (1 + t5) / (1 + t3) - 1|
      ≤ |(counts : ℚ) * 60000 / (interval : ℚ)| * (1 / 4194304) :=
        mul_le_mul_of_nonneg_left hG (abs_nonneg _)
    _ = |(counts : ℚ) * 60000 / (interval : ℚ)| / 4194304 := by ring

namespace Proc_ParticleSensor

/-- After `n` rounds inside the buffer the loop holds the sum of the first
`n` bytes. -/
theorem receiveSumLoop_eq (thebuf : List Byte) (n : Nat) (h : n ≤ thebuf.length) :
    receiveSumLoop thebuf n = some (∑ i ∈ Finset.range n, byteAt thebuf i) := by
  induction n with
  | zero => simp [receiveSumLoop]
  | succ k ih =>
    obtain ⟨b, hb, hv⟩ := exists_byte thebuf k h
    simp only [receiveSumLoop, ih (Nat.le_of_lt h), hb, Option.bind_eq_bind, Option.some_bind,
      Finset.sum_range_succ, hv, Option.pure_def]

/-- The running sum of a 32-byte frame stays far below the range of a 32-bit
`int`, so no wrap-around is lost by computing it in `Nat`. -/
theorem receiveSum_bound (thebuf : List Byte) (n : Nat) :
    ∑ i ∈ Finset.range n, byteAt thebuf i ≤ n * 255 := by
  have hb : ∀ i ∈ Finset.range n, byteAt thebuf i ≤ 255 :=
    fun i _ => Nat.le_of_lt_succ (thebuf.getD i 0).isLt
  simpa using Finset.sum_le_card_nsmul (Finset.range n) (byteAt thebuf) 255 hb

/-- The checksum routine on a 32-byte buffer, in closed form. -/
theorem verifyChecksum_32 (buf : List Byte) (h : buf.length = 32) :
    verifyChecksum buf 32 =
      some (if ∑ i ∈ Finset.range 30, byteAt buf i = 256 * byteAt buf 30 + byteAt buf 31
        then 1 else 0) := by
  obtain ⟨hi, h30, v30⟩ := exists_byte buf 30 (by omega)
  obtain ⟨lo, h31, v31⟩ := exists_byte buf 31 (by omega)
  have hs := receiveSumLoop_eq buf 30 (by omega)
  have e : hi.val * 2 ^ 8 = 256 * hi.val := by ring
  unfold verifyChecksum
  rw [if_neg (by decide : ¬ ((32 : Nat) < 2))]
  simp only [(by decide : (32 : Nat) - 2 = 30), (by decide : (32 : Nat) - 1 = 31), hs, h30,
    h31, Option.bind_eq_bind, Option.some_bind, Nat.shiftLeft_eq, v30, v31, Option.pure_def, e]
  split <;> rfl

/-- The three extraction routines on a buffer of at least ten bytes. -/
theorem extract_eq (buf : List Byte) (h : 10 ≤ buf.length) :
    extractPM01 buf = some (256 * byteAt buf 4 + byteAt buf 5) ∧
    extractPM2_5 buf = some (256 * byteAt buf 6 + byteAt buf 7) ∧
    extractPM10 buf = some (256 * byteAt buf 8 + byteAt buf 9) := by
  obtain ⟨b4, h4, v4⟩ := exists_byte buf 4 (by omega)
  obtain ⟨b5, h5, v5⟩ := exists_byte buf 5 (by omega)
  obtain ⟨b6, h6, v6⟩ := exists_byte buf 6 (by omega)
  obtain ⟨b7, h7, v7⟩ := exists_byte buf 7 (by omega)
  obtain ⟨b8, h8, v8⟩ := exists_byte buf 8 (by omega)
  obtain ⟨b9, h9, v9⟩ := exists_byte buf 9 (by omega)
  simp only [extractPM01, extractPM2_5, extractPM10, h4, h5, h6, h7, h8, h9, v4, v5, v6, v7,
    v8, v9, Option.bind_eq_bind, Option.some_bind, Option.pure_def, Nat.shiftLeft_eq,
    Option.some.injEq]
  refine ⟨?_, ?_, ?_⟩ <;> ring

/-- The header test on a buffer of at least two bytes. -/
theorem headerOK_eq (buf : List Byte) (h : 2 ≤ buf.length) :
    headerOK buf = some (decide (byteAt buf 0 = 0x42 ∧ byteAt buf 1 = 0x4D)) := by
  obtain ⟨b0, h0, v0⟩ := exists_byte buf 0 (by omega)
  obtain ⟨b1, h1, v1⟩ := exists_byte buf 1 (by omega)
  simp only [headerOK, h0, h1, v0, v1, Option.bind_eq_bind, Option.some_bind, Option.pure_def]
  by_cases hb : b0.val = 0x42 <;> simp [hb]

/-- C2. `verifyChecksum(buf, 32)` on any 32-byte buffer returns 1 exactly when
the sum of the unsigned bytes `buf[0..29]` (header included, nothing added)
equals `256 * buf[30] + buf[31]`, and returns 0 otherwise. -/
theorem verifyChecksum_spec (buf : List Byte) (h : buf.length = 32) :
    (verifyChecksum buf 32 = some 1 ↔
      ∑ i ∈ Finset.range 30, byteAt buf i = 256 * byteAt buf 30 + byteAt buf 31) ∧
    (∑ i ∈ Finset.range 30, byteAt buf i ≠ 256 * byteAt buf 30 + byteAt buf 31 →
      verifyChecksum buf 32 = some 0) := by
  rw [verifyChecksum_32 buf h]
  constructor
  · constructor
    · intro hv
      by_contra hne
      rw [if_neg hne] at hv
      exact absurd hv (by decide)
    · intro he
      rw [if_pos he]
  · intro hne
    rw [if_neg hne]

/-- C2 at the canonical frame: the bytes add up to `0x00C9` and the routine
returns 1. -/
theorem verifyChecksum_spec_witness :
    canonicalFrame.length = 32 ∧ verifyChecksum canonicalFrame 32 = some 1 :=
  ⟨by decide, (verifyChecksum_spec canonicalFrame (by decide)).1.2 (by decide)⟩

/-- One service cycle on a 32-byte response, in closed form. -/
theorem service_32 (buf : List Byte) (h : buf.length = 32) (s : Proc_ParticleSensor) :
    service buf s = some
      (if byteAt buf 0 = 0x42 ∧ byteAt buf 1 = 0x4D then
        if verifyChecksum buf 32 = some 1 then
          ({ avgPM01 := s.avgPM01.push ((256 * byteAt buf 4 + byteAt buf 5 : Nat) : ℚ)
             avgPM2_5 := s.avgPM2_5.push ((256 * byteAt buf 6 + byteAt buf 7 : Nat) : ℚ)
             avgPM10 := s.avgPM10.push ((256 * byteAt buf 8 + byteAt buf 9 : Nat) : ℚ) },
            [Event.write PMS7003_cmdPassiveRead 7, Event.flush, Event.readBytes 32 32])
        else
          (s, [Event.write PMS7003_cmdPassiveRead 7, Event.flush, Event.readBytes 32 32,
            Event.errLog "Particle sensor - Checksum wrong"])
      else
        (s, [Event.write PMS7003_cmdPassiveRead 7, Event.flush, Event.readBytes 32 32,
          Event.errLog "Particle sensor -  timeout"])) := by
  obtain ⟨e1, e2, e3⟩ := extract_eq buf (by omega)
  have hh := headerOK_eq buf (by omega)
  have hc := verifyChecksum_32 buf h
  unfold service
  simp only [hh, PMS7003_RESPONSE_SIZE, PMS7003_COMMAND_SIZE, Option.bind_eq_bind,
    Option.some_bind, Option.pure_def, decide_eq_true_eq]
  by_cases hd : byteAt buf 0 = 0x42 ∧ byteAt buf 1 = 0x4D
  · rw [if_pos hd, if_pos hd, hc]
    by_cases hs : ∑ i ∈ Finset.range 30, byteAt buf i = 256 * byteAt buf 30 + byteAt buf 31
    · simp [hs, e1, e2, e3]
    · simp [hs]
  · rw [if_neg hd, if_neg hd]
    simp

/-- C1. On every 32-byte response one service cycle succeeds, and the frame is
accepted exactly when byte 0 is `0x42`, byte 1 is `0x4D` and `verifyChecksum`
returns 1: then each of the three averages receives exactly one push;
otherwise (header or checksum wrong) all three averages are left unchanged.
No input updates only some of the three. -/
theorem service_all_or_nothing (buf : List Byte) (h : buf.length = 32)
    (s : Proc_ParticleSensor) :
    ∃ out : Proc_ParticleSensor × List Event, service buf s = some out ∧
      ((byteAt buf 0 = 0x42 ∧ byteAt buf 1 = 0x4D ∧ verifyChecksum buf 32 = some 1) →
        ∃ a b c : ℚ, out.1.avgPM01 = s.avgPM01.push a ∧ out.1.avgPM2_5 = s.avgPM2_5.push b ∧
          out.1.avgPM10 = s.avgPM10.push c) ∧
      (¬ (byteAt buf 0 = 0x42 ∧ byteAt buf 1 = 0x4D ∧ verifyChecksum buf 32 = some 1) →
        out.1.avgPM01 = s.avgPM01 ∧ out.1.avgPM2_5 = s.avgPM2_5 ∧
          out.1.avgPM10 = s.avgPM10) ∧
      ((out.1.avgPM01 ≠ s.avgPM01 ∨ out.1.avgPM2_5 ≠ s.avgPM2_5 ∨ out.1.avgPM10 ≠ s.avgPM10) ↔
        (byteAt buf 0 = 0x42 ∧ byteAt buf 1 = 0x4D ∧ verifyChecksum buf 32 = some 1)) := by
  refine ⟨_, service_32 buf h s, ?_⟩
  by_cases hd : byteAt buf 0 = 0x42 ∧ byteAt buf 1 = 0x4D
  · by_cases hc : verifyChecksum buf 32 = some 1
    · have hacc : byteAt buf 0 = 0x42 ∧ byteAt buf 1 = 0x4D ∧ verifyChecksum buf 32 = some 1 :=
        ⟨hd.1, hd.2, hc⟩
      rw [if_pos hd, if_pos hc]
      refine ⟨fun _ => ⟨_, _, _, rfl, rfl, rfl⟩, fun hn => absurd hacc hn, ?_⟩
      exact ⟨fun _ => hacc, fun _ => Or.inl (RollingAverage.push_ne _ _)⟩
    · have hrej : ¬ (byteAt buf 0 = 0x42 ∧ byteAt buf 1 = 0x4D ∧
          verifyChecksum buf 32 = some 1) := fun hx => hc hx.2.2
      rw [if_pos hd, if_neg hc]
      refine ⟨fun hx => absurd hx hrej, fun _ => ⟨rfl, rfl, rfl⟩, ?_⟩
      exact ⟨fun hx => by simp at hx, fun hx => absurd hx hrej⟩
  · have hrej : ¬ (byteAt buf 0 = 0x42 ∧ byteAt buf 1 = 0x4D ∧
        verifyChecksum buf 32 = some 1) := fun hx => hd ⟨hx.1, hx.2.1⟩
    rw [if_neg hd]
    refine ⟨fun hx => absurd hx hrej, fun _ => ⟨rfl, rfl, rfl⟩, ?_⟩
    exact ⟨fun hx => by simp at hx, fun hx => absurd hx hrej⟩

/-- C1 at the canonical frame: the cycle succeeds on it. -/
theorem service_all_or_nothing_witness :
    canonicalFrame.length = 32 ∧
      ∃ out, service canonicalFrame ⟨⟨20, [], 0⟩, ⟨20, [], 0⟩, ⟨20, [], 0⟩⟩ = some out :=
  ⟨by decide,
    (service_all_or_nothing canonicalFrame (by decide) ⟨⟨20, [], 0⟩, ⟨20, [], 0⟩, ⟨20, [], 0⟩⟩).imp
      fun _ hx => hx.1⟩

/-- C3. On every 32-byte response the three extraction routines return the
big-endian values `256*buf[4]+buf[5]`, `256*buf[6]+buf[7]`, `256*buf[8]+buf[9]`,
each in `0..65535`; on an accepted frame these are the values that `service`
pushes into `avgPM01`, `avgPM2_5`, `avgPM10`; on a frame that starts with
`42 4D 00 1C 00 08 00 0A 00 0C` they are 8, 10 and 12. -/
theorem extract_spec (buf : List Byte) (h : buf.length = 32) (s : Proc_ParticleSensor) :
    (extractPM01 buf = some (256 * byteAt buf 4 + byteAt buf 5) ∧
      extractPM2_5 buf = some (256 * byteAt buf 6 + byteAt buf 7) ∧
      extractPM10 buf = some (256 * byteAt buf 8 + byteAt buf 9)) ∧
    (256 * byteAt buf 4 + byteAt buf 5 ≤ 65535 ∧ 256 * byteAt buf 6 + byteAt buf 7 ≤ 65535 ∧
      256 * byteAt buf 8 + byteAt buf 9 ≤ 65535) ∧
    ((byteAt buf 0 = 0x42 ∧ byteAt buf 1 = 0x4D ∧ verifyChecksum buf 32 = some 1) →
      ∃ io, service buf s = some
        ({ avgPM01 := s.avgPM01.push ((256 * byteAt buf 4 + byteAt buf 5 : Nat) : ℚ)
           avgPM2_5 := s.avgPM2_5.push ((256 * byteAt buf 6 + byteAt buf 7 : Nat) : ℚ)
           avgPM10 := s.avgPM10.push ((256 * byteAt buf 8 + byteAt buf 9 : Nat) : ℚ) }, io)) ∧
    (∀ rest : List Byte,
      extractPM01 ([0x42, 0x4D, 0x00, 0x1C, 0x00, 0x08, 0x00, 0x0A, 0x00, 0x0C] ++ rest) = some 8 ∧
      extractPM2_5 ([0x42, 0x4D, 0x00, 0x1C, 0x00, 0x08, 0x00, 0x0A, 0x00, 0x0C] ++ rest)
        = some 10 ∧
      extractPM10 ([0x42, 0x4D, 0x00, 0x1C, 0x00, 0x08, 0x00, 0x0A, 0x00, 0x0C] ++ rest)
        = some 12) := by
  refine ⟨extract_eq buf (by omega), ?_, ?_, ?_⟩
  · have hb : ∀ i, byteAt buf i ≤ 255 := fun i => Nat.le_of_lt_succ (buf.getD i 0).isLt
    have h4 := hb 4
    have h5 := hb 5
    have h6 := hb 6
    have h7 := hb 7
    have h8 := hb 8
    have h9 := hb 9
    omega
  · intro hacc
    refine ⟨[Event.write PMS7003_cmdPassiveRead 7, Event.flush, Event.readBytes 32 32], ?_⟩
    rw [service_32 buf h s, if_pos ⟨hacc.1, hacc.2.1⟩, if_pos hacc.2.2]
  · intro rest
    simp only [extractPM01, extractPM2_5, extractPM10, List.cons_append, List.getElem?_cons_succ,
      List.getElem?_cons_zero, Option.bind_eq_bind, Option.some_bind, Option.pure_def]
    decide

/-- C3 at the canonical frame: the pushed values are 8, 10 and 12. -/
theorem extract_spec_witness :
    canonicalFrame.length = 32 ∧
      (service canonicalFrame ⟨⟨20, [], 0⟩, ⟨20, [], 0⟩, ⟨20, [], 0⟩⟩).map Prod.fst =
        some ⟨⟨20, [8], 1⟩, ⟨20, [10], 1⟩, ⟨20, [12], 1⟩⟩ := by
  refine ⟨by decide, ?_⟩
  obtain ⟨io, hio⟩ := (extract_spec canonicalFrame (by decide)
    ⟨⟨20, [], 0⟩, ⟨20, [], 0⟩, ⟨20, [], 0⟩⟩).2.2.1 ⟨by decide, by decide, by decide⟩
  rw [hio]
  simp [RollingAverage.push, byteAt, canonicalFrame]
  refine ⟨?_, ?_, ?_⟩ <;> rfl

end Proc_ParticleSensor

namespace Proc_CO2Sensor

/-- One service cycle on a 9-byte response, in closed form. -/
theorem service_9 (buf : List Byte) (h : buf.length = 9) (s : Proc_CO2Sensor) :
    service buf s = some
      (if byteAt buf 0 ≠ 0xFF then
        (s, [Event.write MHZ19_cmdRead 9, Event.readBytes 9 9, Event.delay 1000,
          Event.errLog "CO2 Sensor - Wrong starting byte", Event.readBytes 9 18])
      else if byteAt buf 1 ≠ 0x86 then
        (s, [Event.write MHZ19_cmdRead 9, Event.readBytes 9 9, Event.delay 1000,
          Event.errLog "CO2 Sensor - Wrong command", Event.readBytes 9 18])
      else
        ({ avgCO2 := s.avgCO2.push ((256 * byteAt buf 2 + byteAt buf 3 : Nat) : ℚ) },
          [Event.write MHZ19_cmdRead 9, Event.readBytes 9 9])) := by
  obtain ⟨b0, h0, v0⟩ := exists_byte buf 0 (by omega)
  obtain ⟨b1, h1, v1⟩ := exists_byte buf 1 (by omega)
  obtain ⟨b2, h2, v2⟩ := exists_byte buf 2 (by omega)
  obtain ⟨b3, h3, v3⟩ := exists_byte buf 3 (by omega)
  unfold service
  simp only [h0, h1, h2, h3, v0, v1, v2, v3, MHZ19_COMMAND_SIZE, MHZ19_RESPONSE_SIZE,
    Option.bind_eq_bind, Option.some_bind, Option.pure_def]
  by_cases c0 : b0.val = 0xFF
  · by_cases c1 : b1.val = 0x86
    · simp [c0, c1]
    · simp [c0, c1]
  · simp [c0]

/-- C4. On every 9-byte response one service cycle succeeds; the response is
accepted exactly when byte 0 is `0xFF` and byte 1 is `0x86`, whatever bytes
4..8 are (no checksum is verified): the outcome is the same for any two
responses that agree on bytes 0..3.  When accepted, exactly one sample equal to
`256 * byte2 + byte3` is pushed into `avgCO2`, otherwise `avgCO2` is unchanged.
For `FF 86 03 E8 00 00 00 00 cs` the pushed value is 1000. -/
theorem service_accepts (buf : List Byte) (h : buf.length = 9) (s : Proc_CO2Sensor) :
    (∃ out : Proc_CO2Sensor × List Event, service buf s = some out ∧
      ((byteAt buf 0 = 0xFF ∧ byteAt buf 1 = 0x86) →
        out.1.avgCO2 = s.avgCO2.push ((256 * byteAt buf 2 + byteAt buf 3 : Nat) : ℚ)) ∧
      (¬ (byteAt buf 0 = 0xFF ∧ byteAt buf 1 = 0x86) → out.1.avgCO2 = s.avgCO2) ∧
      (out.1.avgCO2 ≠ s.avgCO2 ↔ (byteAt buf 0 = 0xFF ∧ byteAt buf 1 = 0x86))) ∧
    (∀ buf2 : List Byte, buf2.length = 9 → (∀ i, i < 4 → byteAt buf2 i = byteAt buf i) →
      service buf2 s = service buf s) ∧
    (∀ cs : Byte, (service [0xFF, 0x86, 0x03, 0xE8, 0x00, 0x00, 0x00, 0x00, cs] s).map
      (fun out => out.1.avgCO2) = some (s.avgCO2.push 1000)) := by
  refine ⟨⟨_, service_9 buf h s, ?_⟩, ?_, ?_⟩
  · by_cases c0 : byteAt buf 0 = 0xFF
    · by_cases c1 : byteAt buf 1 = 0x86
      · rw [if_neg (not_not.mpr c0), if_neg (not_not.mpr c1)]
        exact ⟨fun _ => rfl, fun hn => absurd ⟨c0, c1⟩ hn,
          fun _ => ⟨c0, c1⟩, fun _ => RollingAverage.push_ne _ _⟩
      · rw [if_neg (not_not.mpr c0), if_pos c1]
        exact ⟨fun hx => absurd hx.2 c1, fun _ => rfl,
          fun hx => absurd rfl hx, fun hx => absurd hx.2 c1⟩
    · rw [if_pos c0]
      exact ⟨fun hx => absurd hx.1 c0, fun _ => rfl,
        fun hx => absurd rfl hx, fun hx => absurd hx.1 c0⟩
  · intro buf2 h2 hag
    rw [service_9 buf h s, service_9 buf2 h2 s, hag 0 (by decide), hag 1 (by decide),
      hag 2 (by decide), hag 3 (by decide)]
  · intro cs
    have e0 : ((0xFF : Byte) : Nat) = 255 := rfl
    have e1 : ((0x86 : Byte) : Nat) = 134 := rfl
    have e2 : ((0x03 : Byte) : Nat) = 3 := rfl
    have e3 : ((0xE8 : Byte) : Nat) = 232 := rfl
    rw [service_9 [0xFF, 0x86, 0x03, 0xE8, 0x00, 0x00, 0x00, 0x00, cs] rfl s]
    simp only [byteAt, List.getD_cons_zero, List.getD_cons_succ, e0, e1, e2, e3, ne_eq,
      not_true_eq_false, if_false, Option.map_some']
    norm_num

/-- C4 at the response `FF 86 03 E8 00 00 00 00 79`: the cycle pushes 1000. -/
theorem service_accepts_witness :
    ([0xFF, 0x86, 0x03, 0xE8, 0x00, 0x00, 0x00, 0x00, 0x79] : List Byte).length = 9 ∧
      (service [0xFF, 0x86, 0x03, 0xE8, 0x00, 0x00, 0x00, 0x00, 0x79] ⟨⟨20, [], 0⟩⟩).map
        (fun out => out.1.avgCO2) = some ⟨20, [1000], 1⟩ :=
  ⟨rfl, (service_accepts [0xFF, 0x86, 0x03, 0xE8, 0x00, 0x00, 0x00, 0x00, 0x79] rfl
    ⟨⟨20, [], 0⟩⟩).2.2 0x79⟩

/-- C5. On every 9-byte response that fails validation: if byte 0 is not `0xFF`
the wrong-starting-byte error is reported, whatever byte 1 is; if byte 0 is
`0xFF` and byte 1 is not `0x86` the wrong-command error is reported.  In both
cases the delay of 1000 ms is applied, one discard read of 18 bytes (twice the
response length) is issued, and the process, `avgCO2` included, is unchanged. -/
theorem service_rejects (buf : List Byte) (h : buf.length = 9) (s : Proc_CO2Sensor) :
    (byteAt buf 0 ≠ 0xFF →
      service buf s = some (s, [Event.write MHZ19_cmdRead 9, Event.readBytes 9 9,
        Event.delay 1000, Event.errLog "CO2 Sensor - Wrong starting byte",
        Event.readBytes 9 (2 * 9)])) ∧
    (byteAt buf 0 = 0xFF → byteAt buf 1 ≠ 0x86 →
      service buf s = some (s, [Event.write MHZ19_cmdRead 9, Event.readBytes 9 9,
        Event.delay 1000, Event.errLog "CO2 Sensor - Wrong command",
        Event.readBytes 9 (2 * 9)])) := by
  constructor
  · intro c0
    rw [service_9 buf h s, if_pos c0]
  · intro c0 c1
    rw [service_9 buf h s, if_neg (not_not.mpr c0), if_pos c1]

/-- C5 at the response `00 86 03 E8 00 00 00 00 79` (wrong start byte, right
command byte): the wrong-starting-byte path is taken. -/
theorem service_rejects_witness :
    ([0x00, 0x86, 0x03, 0xE8, 0x00, 0x00, 0x00, 0x00, 0x79] : List Byte).length = 9 ∧
      service [0x00, 0x86, 0x03, 0xE8, 0x00, 0x00, 0x00, 0x00, 0x79] ⟨⟨20, [400], 1⟩⟩ =
        some (⟨⟨20, [400], 1⟩⟩, [Event.write MHZ19_cmdRead 9, Event.readBytes 9 9,
          Event.delay 1000, Event.errLog "CO2 Sensor - Wrong starting byte",
          Event.readBytes 9 18]) :=
  ⟨rfl, (service_rejects [0x00, 0x86, 0x03, 0xE8, 0x00, 0x00, 0x00, 0x00, 0x79] rfl
    ⟨⟨20, [400], 1⟩⟩).1 (by decide)⟩

end Proc_CO2Sensor

namespace Proc_GeigerSensor

/-- The average after one cycle, with the guards written out. -/
theorem service_avgCPM (P m1 m2 : Nat) (s : Proc_GeigerSensor) :
    (service P m1 m2 s).avgCPM =
      if ((elapsed m1 s.lastCountReset : ℚ) < (P : ℚ) * (9 / 10)) ∨
          (elapsed m1 s.lastCountReset > P * 2) then s.avgCPM
      else if elapsed m1 s.lastCountReset = 0 then s.avgCPM
      else if thisCPM s.counts (elapsed m1 s.lastCountReset) > 100000 ∨
          thisCPM s.counts (elapsed m1 s.lastCountReset) < 0 then s.avgCPM
      else s.avgCPM.push (thisCPM s.counts (elapsed m1 s.lastCountReset)) := by
  have e1 : (0.9 : ℚ) = 9 / 10 := by norm_num
  simp only [service, e1]

/-- Inside the window of a positive period the interval is positive. -/
theorem elapsed_pos_of_window (P : Nat) (hP : 0 < P) (i : Nat)
    (hwin : ¬ (((i : ℚ) < (P : ℚ) * (9 / 10)) ∨ (i > P * 2))) : 0 < i := by
  have hPq : (0 : ℚ) < (P : ℚ) := by exact_mod_cast hP
  have hlo : (P : ℚ) * (9 / 10) ≤ (i : ℚ) := by
    by_contra hc
    exact hwin (Or.inl (not_le.mp hc))
  have : (0 : ℚ) < (i : ℚ) := by linarith
  exact_mod_cast this

/-- C6 as stated fails: with period 6000000 ms, 10000002 counts and an interval
of 6000001 ms (inside the window) the rate `count * 60000 / interval` is above
100000, so the claim has nothing pushed; the `float` that the code computes is
100000.0, which passes the test `thisCPM > 100000`, and it is pushed. -/
theorem service_rate_counterexample :
    ((6000000 : ℚ) * (9 / 10) ≤ (elapsed 6000001 0 : ℚ) ∧ elapsed 6000001 0 ≤ 2 * 6000000) ∧
    (((10000002 : Int) : ℚ) * 60000 / (elapsed 6000001 0 : ℚ) > 100000) ∧
    ¬ ((service 6000000 6000001 6000002 ⟨10000002, 0, ⟨40, [], 0⟩⟩).avgCPM = ⟨40, [], 0⟩) ∧
    (service 6000000 6000001 6000002 ⟨10000002, 0, ⟨40, [], 0⟩⟩).avgCPM = ⟨40, [100000], 1⟩ := by
  have he : elapsed 6000001 0 = 6000001 := by norm_num [elapsed]
  have hs : (service 6000000 6000001 6000002 ⟨10000002, 0, ⟨40, [], 0⟩⟩).avgCPM =
      ⟨40, [100000], 1⟩ := by
    rw [service_avgCPM]
    simp only [he]
    rw [thisCPM_rounds_down]
    norm_num [RollingAverage.push]
  refine ⟨⟨by rw [he]; norm_num, by rw [he]; norm_num⟩, by rw [he]; norm_num, ?_, hs⟩
  rw [hs]
  decide

/-- C6, amended. For a positive sampling period, every count and every interval
inside the accepted window `0.9 * period ≤ interval ≤ 2 * period`, with
`rateCPM` the `float` value of `float(count) * 60000.0 / float(interval)` as
the code computes it (`thisCPM`): exactly one sample equal to `rateCPM` is
pushed into `avgCPM` if `0 ≤ rateCPM ≤ 100000`, and `avgCPM` is unchanged if
`rateCPM > 100000` or `rateCPM < 0`.  `rateCPM` is within a relative
`2 ^ (-22)` of `count * 60000 / interval`; when count and interval have at most
24 bits and `count * 60000 / interval` is an integer of at most 24 bits,
`rateCPM` is that quotient; for count 60, interval 60000 ms and period
60000 ms the pushed rate is 60. -/
theorem service_rate (P : Nat) (hP : 0 < P) (m1 m2 : Nat) (s : Proc_GeigerSensor)
    (hlo : (P : ℚ) * (9 / 10) ≤ (elapsed m1 s.lastCountReset : ℚ))
    (hhi : elapsed m1 s.lastCountReset ≤ 2 * P) :
    0 < elapsed m1 s.lastCountReset ∧
    ((0 ≤ thisCPM s.counts (elapsed m1 s.lastCountReset) ∧
        thisCPM s.counts (elapsed m1 s.lastCountReset) ≤ 100000) →
      (service P m1 m2 s).avgCPM =
        s.avgCPM.push (thisCPM s.counts (elapsed m1 s.lastCountReset))) ∧
    ((thisCPM s.counts (elapsed m1 s.lastCountReset) > 100000 ∨
        thisCPM s.counts (elapsed m1 s.lastCountReset) < 0) →
      (service P m1 m2 s).avgCPM = s.avgCPM) ∧
    (|thisCPM s.counts (elapsed m1 s.lastCountReset) -
        (s.counts : ℚ) * 60000 / (elapsed m1 s.lastCountReset : ℚ)| ≤
      |(s.counts : ℚ) * 60000 / (elapsed m1 s.lastCountReset : ℚ)| / 4194304) ∧
    (∀ q : Int, |s.counts| < 2 ^ 24 → elapsed m1 s.lastCountReset < 2 ^ 24 →
      s.counts * 60000 = q * (elapsed m1 s.lastCountReset : Int) → |q| < 2 ^ 24 →
      thisCPM s.counts (elapsed m1 s.lastCountReset) = (q : ℚ)) ∧
    ((s.counts = 60 ∧ elapsed m1 s.lastCountReset = 60000 ∧ P = 60000) →
      (service P m1 m2 s).avgCPM = s.avgCPM.push 60) := by
  have hwin : ¬ (((elapsed m1 s.lastCountReset : ℚ) < (P : ℚ) * (9 / 10)) ∨
      (elapsed m1 s.lastCountReset > P * 2)) := by
    rintro (h | h)
    · exact absurd hlo (not_le.mpr h)
    · omega
  have hpos : 0 < elapsed m1 s.lastCountReset := elapsed_pos_of_window P hP _ hwin
  rw [service_avgCPM, if_neg hwin, if_neg hpos.ne']
  refine ⟨hpos, ?_, ?_, thisCPM_close s.counts _ hpos, ?_, ?_⟩
  · rintro ⟨h0, h1⟩
    rw [if_neg]
    rintro (h | h)
    · exact absurd h1 (not_le.mpr h)
    · exact absurd h0 (not_le.mpr h)
  · intro h
    rw [if_pos h]
  · intro q hc hi hq hq2
    exact thisCPM_exact s.counts _ q hc hpos hi hq hq2
  · rintro ⟨hc, hi, -⟩
    have h60 : thisCPM 60 60000 = 60 := by
      have h := thisCPM_exact 60 60000 60 (by norm_num) (by norm_num) (by norm_num)
        (by norm_num) (by norm_num)
      simpa using h
    rw [hc, hi, h60]
    norm_num

/-- C6, amended, at count 60, interval 60000 ms, period 60000 ms: the rate 60
is pushed. -/
theorem service_rate_witness :
    (service 60000 60000 60007 ⟨60, 0, ⟨40, [10], 1⟩⟩).avgCPM = ⟨40, [10, 60], 2⟩ := by
  have h := (service_rate 60000 (by decide) 60000 60007 ⟨60, 0, ⟨40, [10], 1⟩⟩
    (by norm_num [elapsed]) (by norm_num [elapsed])).2.2.2.2.2 ⟨rfl, by norm_num [elapsed], rfl⟩
  rw [h]
  simp [RollingAverage.push]

/-- C7. For every count and interval: if `interval < 0.9 * period` or
`interval > 2 * period`, `avgCPM` is left unchanged whatever the count.  The
comparisons are strict: at `interval = 0.9 * period` exactly and at
`interval = 2 * period` exactly (period positive) the guard does not discard,
and a rate within `0 .. 100000` is pushed.  For interval 1000 ms with period
60000 ms the cycle is discarded. -/
theorem service_interval_guard (P m1 m2 : Nat) (s : Proc_GeigerSensor) :
    (((elapsed m1 s.lastCountReset : ℚ) < (9 / 10) * (P : ℚ) ∨
        elapsed m1 s.lastCountReset > 2 * P) →
      (service P m1 m2 s).avgCPM = s.avgCPM) ∧
    ((0 < P ∧ ((elapsed m1 s.lastCountReset : ℚ) = (9 / 10) * (P : ℚ) ∨
        elapsed m1 s.lastCountReset = 2 * P) ∧
        0 ≤ thisCPM s.counts (elapsed m1 s.lastCountReset) ∧
        thisCPM s.counts (elapsed m1 s.lastCountReset) ≤ 100000) →
      (service P m1 m2 s).avgCPM =
        s.avgCPM.push (thisCPM s.counts (elapsed m1 s.lastCountReset))) ∧
    ((elapsed m1 s.lastCountReset = 1000 ∧ P = 60000) →
      (service P m1 m2 s).avgCPM = s.avgCPM) := by
  rw [service_avgCPM]
  refine ⟨?_, ?_, ?_⟩
  · intro h
    rw [if_pos]
    rcases h with h | h
    · left
      linarith
    · right
      omega
  · rintro ⟨hP, hb, h0, h1⟩
    have hPq : (0 : ℚ) < (P : ℚ) := by exact_mod_cast hP
    have hwin : ¬ (((elapsed m1 s.lastCountReset : ℚ) < (P : ℚ) * (9 / 10)) ∨
        (elapsed m1 s.lastCountReset > P * 2)) := by
      rcases hb with hb | hb
      · rintro (h | h)
        · linarith
        · have hq : (elapsed m1 s.lastCountReset : ℚ) > (P : ℚ) * 2 := by exact_mod_cast h
          linarith
      · rintro (h | h)
        · have hq : (elapsed m1 s.lastCountReset : ℚ) = 2 * (P : ℚ) := by exact_mod_cast hb
          linarith
        · omega
    rw [if_neg hwin, if_neg (elapsed_pos_of_window P hP _ hwin).ne', if_neg]
    rintro (h | h)
    · exact absurd h1 (not_le.mpr h)
    · exact absurd h0 (not_le.mpr h)
  · rintro ⟨hi, hp⟩
    rw [if_pos]
    left
    rw [hi, hp]
    norm_num

/-- C7 at interval 1000 ms, period 60000 ms: the average is untouched even
with 500 counts pending. -/
theorem service_interval_guard_witness :
    (service 60000 1000 1003 ⟨500, 0, ⟨40, [10], 1⟩⟩).avgCPM = ⟨40, [10], 1⟩ :=
  (service_interval_guard 60000 1000 1003 ⟨500, 0, ⟨40, [10], 1⟩⟩).1
    (Or.inl (by norm_num [elapsed]))

/-- C8 as stated fails: with the first clock reading 60000 (from which the
interval is computed) and the second reading 60001, the cycle does not end
with `lastCountReset` equal to the first reading. -/
theorem service_reset_counterexample :
    ¬ ((service 60000 60000 60001 ⟨60, 0, ⟨40, [], 0⟩⟩).counts = 0 ∧
      (service 60000 60000 60001 ⟨60, 0, ⟨40, [], 0⟩⟩).lastCountReset = 60000) := by
  simp [service]

/-- C8, amended. On every path (interval out of window, rate rejected, rate
accepted) the cycle ends with `counts = 0` and `lastCountReset` equal to the
value returned by the second call of `millis()`, made at the end of the
cycle. -/
theorem service_reset (P m1 m2 : Nat) (s : Proc_GeigerSensor) :
    (service P m1 m2 s).counts = 0 ∧ (service P m1 m2 s).lastCountReset = m2 :=
  ⟨rfl, rfl⟩

end Proc_GeigerSensor

namespace Proc_MultiGasSensor

/-- C9. For every 8-tuple of channel readings, each channel's average receives
exactly one push of its own reading if that reading is `≥ 0` (zero included)
and is unchanged if it is negative, whatever the other seven readings are; a
reading of exactly `-1` leaves that channel's average unchanged while every
other channel is still decided by its own reading alone. -/
theorem service_per_channel (nh3 co no2 c3h8 c4h10 ch4 h2 c2h5oh : ℚ)
    (s : Proc_MultiGasSensor) :
    ((service nh3 co no2 c3h8 c4h10 ch4 h2 c2h5oh s).avgNH3 =
        if nh3 ≥ 0 then s.avgNH3.push nh3 else s.avgNH3) ∧
    ((service nh3 co no2 c3h8 c4h10 ch4 h2 c2h5oh s).avgCO =
        if co ≥ 0 then s.avgCO.push co else s.avgCO) ∧
    ((service nh3 co no2 c3h8 c4h10 ch4 h2 c2h5oh s).avgNO2 =
        if no2 ≥ 0 then s.avgNO2.push no2 else s.avgNO2) ∧
    ((service nh3 co no2 c3h8 c4h10 ch4 h2 c2h5oh s).avgC3H8 =
        if c3h8 ≥ 0 then s.avgC3H8.push c3h8 else s.avgC3H8) ∧
    ((service nh3 co no2 c3h8 c4h10 ch4 h2 c2h5oh s).avgC4H10 =
        if c4h10 ≥ 0 then s.avgC4H10.push c4h10 else s.avgC4H10) ∧
    ((service nh3 co no2 c3h8 c4h10 ch4 h2 c2h5oh s).avgCH4 =
        if ch4 ≥ 0 then s.avgCH4.push ch4 else s.avgCH4) ∧
    ((service nh3 co no2 c3h8 c4h10 ch4 h2 c2h5oh s).avgH2 =
        if h2 ≥ 0 then s.avgH2.push h2 else s.avgH2) ∧
    ((service nh3 co no2 c3h8 c4h10 ch4 h2 c2h5oh s).avgC2H5OH =
        if c2h5oh ≥ 0 then s.avgC2H5OH.push c2h5oh else s.avgC2H5OH) ∧
    (nh3 = -1 → (service nh3 co no2 c3h8 c4h10 ch4 h2 c2h5oh s).avgNH3 = s.avgNH3) ∧
    (co = -1 → (service nh3 co no2 c3h8 c4h10 ch4 h2 c2h5oh s).avgCO = s.avgCO) ∧
    (no2 = -1 → (service nh3 co no2 c3h8 c4h10 ch4 h2 c2h5oh s).avgNO2 = s.avgNO2) ∧
    (c3h8 = -1 → (service nh3 co no2 c3h8 c4h10 ch4 h2 c2h5oh s).avgC3H8 = s.avgC3H8) ∧
    (c4h10 = -1 → (service nh3 co no2 c3h8 c4h10 ch4 h2 c2h5oh s).avgC4H10 = s.avgC4H10) ∧
    (ch4 = -1 → (service nh3 co no2 c3h8 c4h10 ch4 h2 c2h5oh s).avgCH4 = s.avgCH4) ∧
    (h2 = -1 → (service nh3 co no2 c3h8 c4h10 ch4 h2 c2h5oh s).avgH2 = s.avgH2) ∧
    (c2h5oh = -1 →
      (service nh3 co no2 c3h8 c4h10 ch4 h2 c2h5oh s).avgC2H5OH = s.avgC2H5OH) := by
  have key : (service nh3 co no2 c3h8 c4h10 ch4 h2 c2h5oh s) =
      { avgNH3 := if nh3 ≥ 0 then s.avgNH3.push nh3 else s.avgNH3
        avgCO := if co ≥ 0 then s.avgCO.push co else s.avgCO
        avgNO2 := if no2 ≥ 0 then s.avgNO2.push no2 else s.avgNO2
        avgC3H8 := if c3h8 ≥ 0 then s.avgC3H8.push c3h8 else s.avgC3H8
        avgC4H10 := if c4h10 ≥ 0 then s.avgC4H10.push c4h10 else s.avgC4H10
        avgCH4 := if ch4 ≥ 0 then s.avgCH4.push ch4 else s.avgCH4
        avgH2 := if h2 ≥ 0 then s.avgH2.push h2 else s.avgH2
        avgC2H5OH := if c2h5oh ≥ 0 then s.avgC2H5OH.push c2h5oh else s.avgC2H5OH } := by
    unfold service
    by_cases a1 : nh3 ≥ 0 <;> by_cases a2 : co ≥ 0 <;> by_cases a3 : no2 ≥ 0 <;>
      by_cases a4 : c3h8 ≥ 0 <;> by_cases a5 : c4h10 ≥ 0 <;> by_cases a6 : ch4 ≥ 0 <;>
      by_cases a7 : h2 ≥ 0 <;> by_cases a8 : c2h5oh ≥ 0 <;>
      simp only [a1, a2, a3, a4, a5, a6, a7, a8, if_true, if_false]
  have neg : ¬ ((-1 : ℚ) ≥ 0) := by norm_num
  rw [key]
  refine ⟨rfl, rfl, rfl, rfl, rfl, rfl, rfl, rfl, ?_, ?_, ?_, ?_, ?_, ?_, ?_, ?_⟩ <;>
    (intro h; subst h; simp only [if_neg neg])

/-- C9 at a cycle where only the CO reading is the error value `-1` and the
NH3 reading is 0: CO is left as it was, every other channel is pushed. -/
theorem service_per_channel_witness :
    service 0 (-1) 2 3 4 5 6 7
        ⟨⟨20, [], 0⟩, ⟨20, [9], 1⟩, ⟨20, [], 0⟩, ⟨20, [], 0⟩, ⟨20, [], 0⟩, ⟨20, [], 0⟩,
          ⟨20, [], 0⟩, ⟨20, [], 0⟩⟩ =
      ⟨⟨20, [0], 1⟩, ⟨20, [9], 1⟩, ⟨20, [2], 1⟩, ⟨20, [3], 1⟩, ⟨20, [4], 1⟩, ⟨20, [5], 1⟩,
        ⟨20, [6], 1⟩, ⟨20, [7], 1⟩⟩ := by
  have h := service_per_channel 0 (-1) 2 3 4 5 6 7
    ⟨⟨20, [], 0⟩, ⟨20, [9], 1⟩, ⟨20, [], 0⟩, ⟨20, [], 0⟩, ⟨20, [], 0⟩, ⟨20, [], 0⟩,
      ⟨20, [], 0⟩, ⟨20, [], 0⟩⟩
  obtain ⟨h1, -, h3, h4, h5, h6, h7, h8, -, h2, -⟩ := h
  have h2 := h2 rfl
  generalize service 0 (-1) 2 3 4 5 6 7
    ⟨⟨20, [], 0⟩, ⟨20, [9], 1⟩, ⟨20, [], 0⟩, ⟨20, [], 0⟩, ⟨20, [], 0⟩, ⟨20, [], 0⟩,
      ⟨20, [], 0⟩, ⟨20, [], 0⟩⟩ = r at *
  cases r
  simp only [RollingAverage.push] at *
  norm_num at *
  simp_all

end Proc_MultiGasSensor

namespace Proc_GeigerSensor

/-- C12. In every process state `getRadiation()` equals `getCPM()` divided by
the conversion factor 123, and `getCPM()` is the mean of the rolling average of
CPM samples: the arithmetic mean of the samples it holds, 0 when it holds
none. -/
theorem getRadiation_eq (s : Proc_GeigerSensor) :
    (getRadiation s).1 = (getCPM s).1 / 123 ∧
    (getRadiation s).1 = s.avgCPM.mean / 123 ∧
    (getCPM s).1 = s.avgCPM.mean ∧
    (getCPM s).1 =
      if s.avgCPM.samples.length = 0 then 0
      else s.avgCPM.samples.sum / s.avgCPM.samples.length := by
  have e : ((LND712_CONV_FACTOR : Nat) : ℚ) = 123 := by norm_num [LND712_CONV_FACTOR]
  refine ⟨?_, ?_, rfl, rfl⟩
  · show s.avgCPM.mean / ((LND712_CONV_FACTOR : Nat) : ℚ) = s.avgCPM.mean / 123
    rw [e]
  · show s.avgCPM.mean / ((LND712_CONV_FACTOR : Nat) : ℚ) = s.avgCPM.mean / 123
    rw [e]

end Proc_GeigerSensor

/-- C13. Every getter of every sensor process leaves the process state
unchanged, so calling the same getter twice with no `service()` call in
between returns the identical value. -/
theorem getters_side_effect_free :
    SideEffectFree Proc_CO2Sensor.getCO2 ∧
    SideEffectFree Proc_ParticleSensor.getPM01 ∧
    SideEffectFree Proc_ParticleSensor.getPM2_5 ∧
    SideEffectFree Proc_ParticleSensor.getPM10 ∧
    SideEffectFree Proc_GeigerSensor.getCPM ∧
    SideEffectFree Proc_GeigerSensor.getRadiation ∧
    SideEffectFree Proc_VOCSensor.getVOC ∧
    SideEffectFree Proc_MultiGasSensor.getNH3 ∧
    SideEffectFree Proc_MultiGasSensor.getCO ∧
    SideEffectFree Proc_MultiGasSensor.getNO2 ∧
    SideEffectFree Proc_MultiGasSensor.getC3H8 ∧
    SideEffectFree Proc_MultiGasSensor.getC4H10 ∧
    SideEffectFree Proc_MultiGasSensor.getCH4 ∧
    SideEffectFree Proc_MultiGasSensor.getH2 ∧
    SideEffectFree Proc_MultiGasSensor.getC2H5OH ∧
    SideEffectFree Proc_ComboTemperatureHumiditySensor.getTemperature ∧
    SideEffectFree Proc_ComboTemperatureHumiditySensor.getHumidity ∧
    SideEffectFree Proc_ComboPressureHumiditySensor.getPressure ∧
    SideEffectFree Proc_ComboPressureHumiditySensor.getHumidity ∧
    SideEffectFree Proc_ComboPressureHumiditySensor.getTemperature :=
  ⟨fun _ => ⟨rfl, rfl⟩, fun _ => ⟨rfl, rfl⟩, fun _ => ⟨rfl, rfl⟩, fun _ => ⟨rfl, rfl⟩, fun _ => ⟨rfl, rfl⟩, fun _ => ⟨rfl, rfl⟩, fun _ => ⟨rfl, rfl⟩, fun _ => ⟨rfl, rfl⟩, fun _ => ⟨rfl, rfl⟩, fun _ => ⟨rfl, rfl⟩, fun _ => ⟨rfl, rfl⟩, fun _ => ⟨rfl, rfl⟩, fun _ => ⟨rfl, rfl⟩, fun _ => ⟨rfl, rfl⟩, fun _ => ⟨rfl, rfl⟩, fun _ => ⟨rfl, rfl⟩, fun _ => ⟨rfl, rfl⟩, fun _ => ⟨rfl, rfl⟩, fun _ => ⟨rfl, rfl⟩, fun _ => ⟨rfl, rfl⟩⟩

namespace Proc_GeigerSensor

/-- C16. For a positive period, whenever the interval guard lets the cycle
through (so the rate is computed) the interval is strictly positive: the
division is never by zero.  For a non-negative count the rate is then
non-negative, both as the exact quotient `count * 60000 / interval` and as the
`float` the code computes, so the `rate < 0` rejection never fires: the outcome
is decided by the `rate > 100000` test alone. -/
theorem service_divisor_pos (P : Nat) (hP : 0 < P) (m1 m2 : Nat) (s : Proc_GeigerSensor)
    (hwin : ¬ (((elapsed m1 s.lastCountReset : ℚ) < (P : ℚ) * 0.9) ∨
      (elapsed m1 s.lastCountReset > P * 2))) :
    0 < elapsed m1 s.lastCountReset ∧
    (0 ≤ s.counts →
      0 ≤ (s.counts : ℚ) * 60000 / (elapsed m1 s.lastCountReset : ℚ) ∧
      ¬ ((s.counts : ℚ) * 60000 / (elapsed m1 s.lastCountReset : ℚ) < 0) ∧
      0 ≤ thisCPM s.counts (elapsed m1 s.lastCountReset) ∧
      ¬ (thisCPM s.counts (elapsed m1 s.lastCountReset) < 0) ∧
      (service P m1 m2 s).avgCPM =
        if thisCPM s.counts (elapsed m1 s.lastCountReset) > 100000 then s.avgCPM
        else s.avgCPM.push (thisCPM s.counts (elapsed m1 s.lastCountReset))) := by
  have e1 : (0.9 : ℚ) = 9 / 10 := by norm_num
  rw [e1] at hwin
  have hpos : 0 < elapsed m1 s.lastCountReset := elapsed_pos_of_window P hP _ hwin
  have hposq : (0 : ℚ) < (elapsed m1 s.lastCountReset : ℚ) := by exact_mod_cast hpos
  refine ⟨hpos, ?_⟩
  intro hc
  have hcq : (0 : ℚ) ≤ (s.counts : ℚ) := by exact_mod_cast hc
  have hrate : 0 ≤ (s.counts : ℚ) * 60000 / (elapsed m1 s.lastCountReset : ℚ) :=
    div_nonneg (mul_nonneg hcq (by norm_num)) hposq.le
  have hfl : 0 ≤ thisCPM s.counts (elapsed m1 s.lastCountReset) := thisCPM_nonneg _ _ hc
  refine ⟨hrate, not_lt.mpr hrate, hfl, not_lt.mpr hfl, ?_⟩
  rw [service_avgCPM, if_neg hwin, if_neg hpos.ne']
  by_cases hbig : thisCPM s.counts (elapsed m1 s.lastCountReset) > 100000
  · rw [if_pos (Or.inl hbig), if_pos hbig]
  · rw [if_neg, if_neg hbig]
    rintro (h | h)
    · exact hbig h
    · exact absurd hfl (not_le.mpr h)

/-- C16 at count 60, interval 60000 ms, period 60000 ms: the divisor is
positive. -/
theorem service_divisor_pos_witness : 0 < elapsed 60000 0 :=
  (service_divisor_pos 60000 (by decide) 60000 60007 ⟨60, 0, ⟨40, [10], 1⟩⟩
    (by norm_num [elapsed])).1

end Proc_GeigerSensor

namespace Proc_GeigerSensor

/-- Running the handler `n` times adds `n` to `counts` and touches nothing
else. -/
theorem pulses_eq (n : Nat) (s : Proc_GeigerSensor) :
    pulses n s = { s with counts := s.counts + (n : Int) } := by
  induction n with
  | zero => simp [pulses]
  | succ k ih =>
    simp only [pulses, ih, onTubeEvent]
    congr 1
    push_cast
    ring

/-- The two parts of `service()` run one after the other are `service()`. -/
theorem service_eq_reset_measure (P m1 m2 : Nat) (s : Proc_GeigerSensor) :
    service P m1 m2 s = serviceReset m2 (serviceMeasure P m1 s) := rfl

/-- C14 as stated fails: with 60 counts pending and one interrupt arriving
after `counts` was read for the rate and before `counts = 0`, the outcome (rate
60 pushed, `counts` back to 0) is not the outcome of any execution in which
that increment falls entirely before or entirely after an atomic read-and-reset:
the pulse is in no cycle's count. -/
theorem serviceInterleaved_counterexample :
    ¬ ∃ a c : Nat, a + c = 1 ∧
      serviceInterleaved 60000 60000 60001 0 1 0 ⟨60, 0, ⟨40, [], 0⟩⟩ =
        pulses c (service 60000 60000 60001 (pulses a ⟨60, 0, ⟨40, [], 0⟩⟩)) := by
  rintro ⟨a, c, hac, h⟩
  have ha : a = 0 ∨ a = 1 := by omega
  rcases ha with ha | ha
  · have hc : c = 1 := by omega
    subst ha
    subst hc
    have h2 := congrArg Proc_GeigerSensor.counts h
    simp [serviceInterleaved, pulses, onTubeEvent, serviceReset, service] at h2
  · have hc : c = 0 := by omega
    subst ha
    subst hc
    have h60 : thisCPM 60 60000 = 60 := by
      have hx := thisCPM_exact 60 60000 60 (by norm_num) (by norm_num) (by norm_num)
        (by norm_num) (by norm_num)
      simpa using hx
    have h61 : thisCPM 61 60000 = 61 := by
      have hx := thisCPM_exact 61 60000 61 (by norm_num) (by norm_num) (by norm_num)
        (by norm_num) (by norm_num)
      simpa using hx
    have h2 := congrArg (fun t => t.avgCPM.samples) h
    simp [serviceInterleaved, pulses, onTubeEvent, serviceReset, serviceMeasure, service,
      elapsed, RollingAverage.push, h60, h61] at h2
    norm_num at h2

/-- C14, amended. `service()` has no critical section.  For every interleaving
of the handler with one execution of `service()`: the increments that arrive
before `counts` is read are in this cycle's count, the increments that arrive
after `counts = 0` are left for the next cycle, and the increments that arrive
between the read and `counts = 0` have no effect at all, they are lost.  The
cycle ends with `counts` equal to the number of increments after the reset. -/
theorem serviceInterleaved_eq (P m1 m2 a b c : Nat) (s : Proc_GeigerSensor) :
    serviceInterleaved P m1 m2 a b c s = pulses c (service P m1 m2 (pulses a s)) ∧
    (serviceInterleaved P m1 m2 a b c s).counts = (c : Int) ∧
    serviceInterleaved P m1 m2 a 0 c s = pulses c (service P m1 m2 (pulses a s)) := by
  have h : ∀ b : Nat,
      serviceInterleaved P m1 m2 a b c s = pulses c (service P m1 m2 (pulses a s)) := by
    intro b
    simp only [serviceInterleaved, service_eq_reset_measure, pulses_eq, serviceReset,
      serviceMeasure]
  refine ⟨h b, ?_, h 0⟩
  rw [h b, pulses_eq]
  simp [service]

end Proc_GeigerSensor

namespace Proc_CO2Sensor

/-- C15 fails on the MH-Z19 error path: on the response
`00 86 03 E8 00 00 00 00 79` (wrong start byte) `service()` asks `readBytes` for
18 bytes into `Buffer`, an array of 9 elements. -/
theorem service_discard_read_exceeds_buffer :
    ∃ out : Proc_CO2Sensor × List Event,
      service [0x00, 0x86, 0x03, 0xE8, 0x00, 0x00, 0x00, 0x00, 0x79] ⟨⟨20, [], 0⟩⟩ = some out ∧
      Event.readBytes 9 18 ∈ out.2 ∧ out.2.all Event.fitsBuffer = false := by
  refine ⟨_, service_9 [0x00, 0x86, 0x03, 0xE8, 0x00, 0x00, 0x00, 0x00, 0x79] rfl
    ⟨⟨20, [], 0⟩⟩, ?_, ?_⟩
  · rw [if_pos (by decide)]
    simp
  · rw [if_pos (by decide)]
    rfl

/-- Every other `readBytes` of the two serial sensors stays inside its
destination array: both `setup()` routines, the particle `service()` on any
32-byte response, and the CO2 `service()` on an accepted response.  On every
rejected 9-byte response the CO2 `service()` asks for 18 bytes into 9. -/
theorem readBytes_fit_elsewhere (p : Proc_ParticleSensor) (q : Proc_CO2Sensor) :
    (Proc_ParticleSensor.setup p).2.all Event.fitsBuffer = true ∧
    (setup q).2.all Event.fitsBuffer = true ∧
    (∀ buf : List Byte, buf.length = 32 →
      ∃ out, Proc_ParticleSensor.service buf p = some out ∧
        out.2.all Event.fitsBuffer = true) ∧
    (∀ buf : List Byte, buf.length = 9 →
      ∃ out, service buf q = some out ∧
        (out.2.all Event.fitsBuffer = true ↔ (byteAt buf 0 = 0xFF ∧ byteAt buf 1 = 0x86))) := by
  refine ⟨rfl, rfl, ?_, ?_⟩
  · intro buf h
    refine ⟨_, Proc_ParticleSensor.service_32 buf h p, ?_⟩
    split
    · split <;> rfl
    · rfl
  · intro buf h
    refine ⟨_, service_9 buf h q, ?_⟩
    by_cases c0 : byteAt buf 0 = 0xFF
    · by_cases c1 : byteAt buf 1 = 0x86
      · rw [if_neg (not_not.mpr c0), if_neg (not_not.mpr c1)]
        exact ⟨fun _ => ⟨c0, c1⟩, fun _ => rfl⟩
      · rw [if_neg (not_not.mpr c0), if_pos c1]
        exact ⟨fun hx => by simp [Event.fitsBuffer] at hx, fun hx => absurd hx.2 c1⟩
    · rw [if_pos c0]
      exact ⟨fun hx => by simp [Event.fitsBuffer] at hx, fun hx => absurd hx.1 c0⟩

end Proc_CO2Sensor

/-- A freshly constructed average holds nothing. -/
theorem RollingAverage.allSamples_new (Q : ℚ → Prop) (capacity : Nat) :
    (RollingAverage.new capacity).AllSamples Q := by
  intro v hv
  simp [RollingAverage.new] at hv

/-- A push keeps a property of the held samples if the new sample has it. -/
theorem RollingAverage.allSamples_push (Q : ℚ → Prop) (a : RollingAverage) (v : ℚ)
    (ha : a.AllSamples Q) (hv : Q v) : (a.push v).AllSamples Q := by
  intro w hw
  have hw2 : w ∈ a.samples ++ [v] := List.mem_of_mem_drop hw
  rcases List.mem_append.mp hw2 with h | h
  · exact ha w h
  · rw [List.mem_singleton.mp h]
    exact hv

/-- The eight averages after one multi-gas cycle, field by field. -/
theorem Proc_MultiGasSensor.service_fields (nh3 co no2 c3h8 c4h10 ch4 h2 c2h5oh : ℚ)
    (s : Proc_MultiGasSensor) :
    Proc_MultiGasSensor.service nh3 co no2 c3h8 c4h10 ch4 h2 c2h5oh s =
      { avgNH3 := if nh3 ≥ 0 then s.avgNH3.push nh3 else s.avgNH3
        avgCO := if co ≥ 0 then s.avgCO.push co else s.avgCO
        avgNO2 := if no2 ≥ 0 then s.avgNO2.push no2 else s.avgNO2
        avgC3H8 := if c3h8 ≥ 0 then s.avgC3H8.push c3h8 else s.avgC3H8
        avgC4H10 := if c4h10 ≥ 0 then s.avgC4H10.push c4h10 else s.avgC4H10
        avgCH4 := if ch4 ≥ 0 then s.avgCH4.push ch4 else s.avgCH4
        avgH2 := if h2 ≥ 0 then s.avgH2.push h2 else s.avgH2
        avgC2H5OH := if c2h5oh ≥ 0 then s.avgC2H5OH.push c2h5oh else s.avgC2H5OH } := by
  unfold Proc_MultiGasSensor.service
  by_cases a1 : nh3 ≥ 0 <;> by_cases a2 : co ≥ 0 <;> by_cases a3 : no2 ≥ 0 <;>
    by_cases a4 : c3h8 ≥ 0 <;> by_cases a5 : c4h10 ≥ 0 <;> by_cases a6 : ch4 ≥ 0 <;>
    by_cases a7 : h2 ≥ 0 <;> by_cases a8 : c2h5oh ≥ 0 <;>
    simp only [a1, a2, a3, a4, a5, a6, a7, a8, if_true, if_false]

/-- A conditional push keeps a property of the held samples if the sample has
it whenever it is pushed. -/
theorem RollingAverage.allSamples_ite (Q : ℚ → Prop) (a : RollingAverage) (v : ℚ) (c : Prop)
    [Decidable c] (ha : a.AllSamples Q) (hv : c → Q v) :
    (if c then a.push v else a).AllSamples Q := by
  by_cases hc : c
  · rw [if_pos hc]
    exact RollingAverage.allSamples_push Q a v ha (hv hc)
  · rw [if_neg hc]
    exact ha

/-- The particle process only ever holds fields of accepted responses. -/
theorem Proc_ParticleSensor.particle_reachable_holdsAccepted (W : Nat) (s : Proc_ParticleSensor)
    (h : Proc_ParticleSensor.Reachable W s) : s.HoldsAccepted := by
  induction h with
  | afterSetup =>
    exact ⟨RollingAverage.allSamples_new _ _, RollingAverage.allSamples_new _ _,
      RollingAverage.allSamples_new _ _⟩
  | afterService buf s out _ hlen hout ih =>
    rw [Proc_ParticleSensor.service_32 buf hlen s] at hout
    have hout2 := Option.some.inj hout
    subst hout2
    by_cases hd : byteAt buf 0 = 0x42 ∧ byteAt buf 1 = 0x4D
    · by_cases hc : Proc_ParticleSensor.verifyChecksum buf 32 = some 1
      · rw [if_pos hd, if_pos hc]
        have hacc : Proc_ParticleSensor.Accepts buf := ⟨hlen, hd.1, hd.2, hc⟩
        exact ⟨RollingAverage.allSamples_push _ _ _ ih.1 ⟨buf, hacc, rfl⟩,
          RollingAverage.allSamples_push _ _ _ ih.2.1 ⟨buf, hacc, rfl⟩,
          RollingAverage.allSamples_push _ _ _ ih.2.2 ⟨buf, hacc, rfl⟩⟩
      · rw [if_pos hd, if_neg hc]
        exact ih
    · rw [if_neg hd]
      exact ih

/-- The CO2 process only ever holds values of accepted responses. -/
theorem Proc_CO2Sensor.co2_reachable_holdsAccepted (W : Nat) (s : Proc_CO2Sensor)
    (h : Proc_CO2Sensor.Reachable W s) : s.HoldsAccepted := by
  induction h with
  | afterSetup => exact RollingAverage.allSamples_new _ _
  | afterService buf s out _ hlen hout ih =>
    rw [Proc_CO2Sensor.service_9 buf hlen s] at hout
    have hout2 := Option.some.inj hout
    subst hout2
    by_cases c0 : byteAt buf 0 = 0xFF
    · by_cases c1 : byteAt buf 1 = 0x86
      · rw [if_neg (not_not.mpr c0), if_neg (not_not.mpr c1)]
        exact RollingAverage.allSamples_push _ _ _ ih ⟨buf, ⟨hlen, c0, c1⟩, rfl⟩
      · rw [if_neg (not_not.mpr c0), if_pos c1]
        exact ih
    · rw [if_pos c0]
      exact ih

/-- The Geiger process only ever holds the seed and accepted rates. -/
theorem Proc_GeigerSensor.geiger_reachable_holdsAcceptedOrSeed (P W : Nat) (s : Proc_GeigerSensor)
    (h : Proc_GeigerSensor.Reachable P W s) : s.HoldsAcceptedOrSeed P := by
  induction h with
  | afterSetup counts lastCountReset =>
    exact RollingAverage.allSamples_push _ _ _ (RollingAverage.allSamples_new _ _)
      (Or.inl (by norm_num))
  | afterService m1 m2 s _ ih =>
    show (Proc_GeigerSensor.service P m1 m2 s).avgCPM.AllSamples _
    unfold Proc_GeigerSensor.service
    simp only []
    split_ifs with h1 h0 h2
    · exact ih
    · exact ih
    · exact ih
    · exact RollingAverage.allSamples_push _ _ _ ih
        (Or.inr ⟨s.counts, Proc_GeigerSensor.elapsed m1 s.lastCountReset, h1, h0, h2, rfl⟩)
  | afterPulse s _ ih => exact ih

/-- The multi-gas process only ever holds readings that are `≥ 0`. -/
theorem Proc_MultiGasSensor.gas_reachable_holdsAccepted (W : Nat) (s : Proc_MultiGasSensor)
    (h : Proc_MultiGasSensor.Reachable W s) : s.HoldsAccepted := by
  induction h with
  | afterSetup =>
    exact ⟨RollingAverage.allSamples_new _ _, RollingAverage.allSamples_new _ _,
      RollingAverage.allSamples_new _ _, RollingAverage.allSamples_new _ _,
      RollingAverage.allSamples_new _ _, RollingAverage.allSamples_new _ _,
      RollingAverage.allSamples_new _ _, RollingAverage.allSamples_new _ _⟩
  | afterService nh3 co no2 c3h8 c4h10 ch4 h2 c2h5oh s _ ih =>
    rw [Proc_MultiGasSensor.service_fields]
    obtain ⟨i1, i2, i3, i4, i5, i6, i7, i8⟩ := ih
    exact ⟨RollingAverage.allSamples_ite _ _ _ _ i1 id,
      RollingAverage.allSamples_ite _ _ _ _ i2 id,
      RollingAverage.allSamples_ite _ _ _ _ i3 id,
      RollingAverage.allSamples_ite _ _ _ _ i4 id,
      RollingAverage.allSamples_ite _ _ _ _ i5 id,
      RollingAverage.allSamples_ite _ _ _ _ i6 id,
      RollingAverage.allSamples_ite _ _ _ _ i7 id,
      RollingAverage.allSamples_ite _ _ _ _ i8 id⟩

/-- C11 as stated fails: right after `Proc_GeigerSensor::setup()`, before any
`service()` cycle, the CPM average is not empty and `getCPM()` returns 10, a
value that is no measured rate. -/
theorem setup_seeds_average_counterexample :
    ¬ ((Proc_GeigerSensor.setup (Proc_GeigerSensor.new 20 0 0)).avgCPM.samples = []) ∧
    (Proc_GeigerSensor.getCPM (Proc_GeigerSensor.setup (Proc_GeigerSensor.new 20 0 0))).1
      = 10 := by
  constructor
  · simp [Proc_GeigerSensor.setup, Proc_GeigerSensor.new, RollingAverage.new,
      RollingAverage.push]
  · simp [Proc_GeigerSensor.getCPM, RollingAverage.meanCall, RollingAverage.mean,
      Proc_GeigerSensor.setup, Proc_GeigerSensor.new, RollingAverage.new, RollingAverage.push]
    norm_num

/-- C11, amended. In every state reached from construction by `setup()` and
any number of `service()` cycles, every value held by a rolling average of the
particle, CO2 and multi-gas processes was pushed by `service()` from a reading
that passed that sensor's validation, and every value held by the Geiger
average is such a rate or the seed 10.  The `setup()` of every process except
the Geiger one pushes nothing; `Proc_GeigerSensor::setup()` pushes the seed
10.0, so after it and before the first accepted cycle the CPM average holds
exactly that one sample and `getCPM()` returns 10. -/
theorem averages_hold_accepted_or_seed (W P : Nat) :
    (∀ s, Proc_ParticleSensor.Reachable W s → s.HoldsAccepted) ∧
    (∀ s, Proc_CO2Sensor.Reachable W s → s.HoldsAccepted) ∧
    (∀ s, Proc_MultiGasSensor.Reachable W s → s.HoldsAccepted) ∧
    (∀ s, Proc_GeigerSensor.Reachable P W s → s.HoldsAcceptedOrSeed P) ∧
    (∀ s, (Proc_ParticleSensor.setup s).1 = s) ∧
    (∀ s, (Proc_CO2Sensor.setup s).1 = s) ∧
    (∀ s, (Proc_MultiGasSensor.setup s).1 = s) ∧
    (∀ s, Proc_VOCSensor.setup s = s) ∧
    (∀ deviceId s, (Proc_ComboTemperatureHumiditySensor.setup deviceId s).1 = s) ∧
    (∀ found s, (Proc_ComboPressureHumiditySensor.setup found s).1 = s) ∧
    (∀ counts lastCountReset,
      (Proc_GeigerSensor.setup (Proc_GeigerSensor.new W counts lastCountReset)).avgCPM =
        (RollingAverage.new (W * 2)).push 10 ∧
      (0 < W →
        (Proc_GeigerSensor.setup (Proc_GeigerSensor.new W counts lastCountReset)).avgCPM.samples
          = [10] ∧
        (Proc_GeigerSensor.getCPM
          (Proc_GeigerSensor.setup (Proc_GeigerSensor.new W counts lastCountReset))).1 = 10)) := by
  refine ⟨Proc_ParticleSensor.particle_reachable_holdsAccepted W, Proc_CO2Sensor.co2_reachable_holdsAccepted W,
    Proc_MultiGasSensor.gas_reachable_holdsAccepted W,
    Proc_GeigerSensor.geiger_reachable_holdsAcceptedOrSeed P W, fun _ => rfl, fun _ => rfl,
    fun _ => rfl, fun _ => rfl, ?_, ?_, ?_⟩
  · intro deviceId s
    unfold Proc_ComboTemperatureHumiditySensor.setup
    split <;> rfl
  · intro found s
    unfold Proc_ComboPressureHumiditySensor.setup
    split <;> rfl
  · intro counts lastCountReset
    have e : (10.0 : ℚ) = 10 := by norm_num
    have hs : (Proc_GeigerSensor.setup (Proc_GeigerSensor.new W counts lastCountReset)).avgCPM =
        (RollingAverage.new (W * 2)).push 10 := by
      show (RollingAverage.new (W * 2)).push 10.0 = (RollingAverage.new (W * 2)).push 10
      rw [e]
    refine ⟨hs, ?_⟩
    intro hW
    have h1 : 1 - W * 2 = 0 := by omega
    have hsamples : ((RollingAverage.new (W * 2)).push 10).samples = [10] := by
      simp [RollingAverage.new, RollingAverage.push, h1]
    refine ⟨by rw [hs, hsamples], ?_⟩
    show (Proc_GeigerSensor.setup (Proc_GeigerSensor.new W counts lastCountReset)).avgCPM.mean = 10
    rw [hs]
    simp [RollingAverage.mean, hsamples]

/-- C11, amended, at the Geiger process built with a window of 20: after
`setup()` the average holds `[10]`, and after one more cycle (interval 60000 ms,
period 60000 ms, no pulse) it holds only the seed and accepted rates. -/
theorem averages_hold_accepted_or_seed_witness :
    (Proc_GeigerSensor.setup (Proc_GeigerSensor.new 20 0 0)).avgCPM.samples = [10] ∧
    (Proc_GeigerSensor.service 60000 60000 60007
      (Proc_GeigerSensor.setup (Proc_GeigerSensor.new 20 0 0))).HoldsAcceptedOrSeed 60000 :=
  ⟨((averages_hold_accepted_or_seed 20 60000).2.2.2.2.2.2.2.2.2.2 0 0).2 (by decide) |>.1,
    (averages_hold_accepted_or_seed 20 60000).2.2.2.1 _
      (Proc_GeigerSensor.Reachable.afterService 60000 60007 _
        (Proc_GeigerSensor.Reachable.afterSetup 0 0))⟩

/-- C10. Each of the four PMS7003 command constants is exactly 7 bytes long,
starts with `0x42 0x4D`, and its last two bytes, read as a big-endian 16-bit
number, equal the sum of its first five bytes taken as unsigned values. -/
theorem PMS7003_commands_checksum :
    (PMS7003_cmdPassiveEnable.length = 7 ∧ byteAt PMS7003_cmdPassiveEnable 0 = 0x42 ∧
      byteAt PMS7003_cmdPassiveEnable 1 = 0x4D ∧
      256 * byteAt PMS7003_cmdPassiveEnable 5 + byteAt PMS7003_cmdPassiveEnable 6 =
        byteAt PMS7003_cmdPassiveEnable 0 + byteAt PMS7003_cmdPassiveEnable 1 + byteAt PMS7003_cmdPassiveEnable 2 +
          byteAt PMS7003_cmdPassiveEnable 3 + byteAt PMS7003_cmdPassiveEnable 4) ∧
    (PMS7003_cmdPassiveRead.length = 7 ∧ byteAt PMS7003_cmdPassiveRead 0 = 0x42 ∧
      byteAt PMS7003_cmdPassiveRead 1 = 0x4D ∧
      256 * byteAt PMS7003_cmdPassiveRead 5 + byteAt PMS7003_cmdPassiveRead 6 =
        byteAt PMS7003_cmdPassiveRead 0 + byteAt PMS7003_cmdPassiveRead 1 + byteAt PMS7003_cmdPassiveRead 2 +
          byteAt PMS7003_cmdPassiveRead 3 + byteAt PMS7003_cmdPassiveRead 4) ∧
    (PMS7003_cmdSleep.length = 7 ∧ byteAt PMS7003_cmdSleep 0 = 0x42 ∧
      byteAt PMS7003_cmdSleep 1 = 0x4D ∧
      256 * byteAt PMS7003_cmdSleep 5 + byteAt PMS7003_cmdSleep 6 =
        byteAt PMS7003_cmdSleep 0 + byteAt PMS7003_cmdSleep 1 + byteAt PMS7003_cmdSleep 2 +
          byteAt PMS7003_cmdSleep 3 + byteAt PMS7003_cmdSleep 4) ∧
    (PMS7003_cmdWakeup.length = 7 ∧ byteAt PMS7003_cmdWakeup 0 = 0x42 ∧
      byteAt PMS7003_cmdWakeup 1 = 0x4D ∧
      256 * byteAt PMS7003_cmdWakeup 5 + byteAt PMS7003_cmdWakeup 6 =
        byteAt PMS7003_cmdWakeup 0 + byteAt PMS7003_cmdWakeup 1 + byteAt PMS7003_cmdWakeup 2 +
          byteAt PMS7003_cmdWakeup 3 + byteAt PMS7003_cmdWakeup 4) := by
  decide

end AtmoScan
